import Mathlib

/-!
# VigilCD core — shallow embedding and verification

This file embeds the core of the VigilCD GitOps agent (files
`src/service.py`, `src/state.py`, `src/docker_env_validator.py`,
`src/models.py`) as executable Lean definitions and proves properties of
the reconciliation state machine, the retry executor, the deployment
executor, the environment validator, the health checker and the status
store.

Modelling conventions:
* Python dicts become association lists (`alistGet`/`alistSet`), which
  share Python's semantics for the operations used by the code: lookup of
  the entry for a key, in-place update preserving insertion order, and
  insertion at the end.
* Subprocess and filesystem interactions become oracle fields of
  environment structures (`SyncEnv`, `DeployEnv`, `HealthEnv`, `VEnv`):
  each oracle records what the external world would answer for a given
  invocation, so the embedded functions stay pure and total while still
  mirroring the source's control flow on every possible answer.
* Python exceptions become `Except String` values; a `try/except` block
  becomes a `match` on the `Except`.  Wall-clock times are `Nat`.
-/

set_option autoImplicit false

namespace VigilCD

universe u

/-! ## Association lists modelling Python dicts -/

/-- Lookup of the value stored for key `k` (Python `d[k]` / `d.get(k)`). -/
def alistGet {α : Type u} (l : List (String × α)) (k : String) : Option α :=
  match l with
  | [] => none
  | p :: rest => if p.1 = k then some p.2 else alistGet rest k

/-- Python `d[k] = v`: replaces the entry in place if the key is present
(dicts keep insertion order on update), appends it otherwise. -/
def alistSet {α : Type u} (l : List (String × α)) (k : String) (v : α) :
    List (String × α) :=
  match l with
  | [] => [(k, v)]
  | p :: rest => if p.1 = k then (k, v) :: rest else p :: alistSet rest k v

@[simp] theorem alistGet_nil {α : Type u} (k : String) :
    alistGet ([] : List (String × α)) k = none := rfl

@[simp] theorem alistGet_cons {α : Type u} (p : String × α)
    (rest : List (String × α)) (k : String) :
    alistGet (p :: rest) k = if p.1 = k then some p.2 else alistGet rest k := rfl

@[simp] theorem alistSet_nil {α : Type u} (k : String) (v : α) :
    alistSet ([] : List (String × α)) k v = [(k, v)] := rfl

@[simp] theorem alistSet_cons {α : Type u} (p : String × α)
    (rest : List (String × α)) (k : String) (v : α) :
    alistSet (p :: rest) k v =
      if p.1 = k then (k, v) :: rest else p :: alistSet rest k v := rfl

theorem alistGet_set_self {α : Type u} (l : List (String × α)) (k : String) (v : α) :
    alistGet (alistSet l k v) k = some v := by
  induction l with
  | nil => simp [alistGet, alistSet]
  | cons p rest ih =>
      by_cases h : p.1 = k <;> simp [alistGet, alistSet, h, ih]

theorem alistGet_set_ne {α : Type u} (l : List (String × α)) (k k' : String) (v : α)
    (h : k' ≠ k) : alistGet (alistSet l k v) k' = alistGet l k' := by
  have hk : ¬(k = k') := fun he => h he.symm
  induction l with
  | nil => simp [alistGet, alistSet, hk]
  | cons p rest ih =>
      by_cases hp : p.1 = k
      · subst hp
        simp [alistGet, alistSet, hk]
      · simp only [alistSet, if_neg hp, alistGet_cons]
        by_cases hp' : p.1 = k' <;> simp [hp', ih]

theorem alistGet_append {α : Type u} (l₁ l₂ : List (String × α)) (k : String) :
    alistGet (l₁ ++ l₂) k =
      ((alistGet l₁ k).rec (alistGet l₂ k) (fun v => some v) : Option α) := by
  induction l₁ with
  | nil => simp [alistGet]
  | cons p rest ih =>
      by_cases h : p.1 = k <;> simp [alistGet, h, ih]

/-! ## The retry executor (`DeploymentService._retry_with_backoff`)

```python
for attempt in range(max_retries):
    try:
        return func()
    except (GitOperationError, GitCommandError) as e:
        if attempt == max_retries - 1:
            logger.error(...); raise
        time.sleep(backoff_factor ** attempt)
return None
```

`f attempt` is the outcome of invoking the wrapped function for the
`attempt`-th time (0-indexed); its errors are exactly the recoverable
category (`GitOperationError`/`GitCommandError`).  The returned pair is
(retry-executor result, number of invocations of the wrapped function);
`Except.ok none` is Python's fall-through `return None` (only reachable
when `max_retries = 0`).  Besides `attempt`, the loop's remaining
iteration count `maxRetries - attempt` is carried explicitly
(`remaining`) as the structural recursion measure; the exit test is the
source's `attempt == max_retries - 1`.  The `time.sleep` has no
observable effect on the value computed and is not modelled. -/
def retryAux {ε α : Type} (f : Nat → Except ε α) (maxRetries : Nat) :
    Nat → Nat → Except ε (Option α) × Nat
  | attempt, 0 => (.ok none, attempt)
  | attempt, remaining + 1 =>
      match f attempt with
      | .ok v => (.ok (some v), attempt + 1)
      | .error e =>
          if attempt = maxRetries - 1 then (.error e, attempt + 1)
          else retryAux f maxRetries (attempt + 1) remaining

/-- `_retry_with_backoff(func, max_retries)`: run the loop starting at
attempt 0 with `max_retries` iterations available.  Result plus the
number of invocations performed. -/
def retry_with_backoff {ε α : Type} (f : Nat → Except ε α) (maxRetries : Nat) :
    Except ε (Option α) × Nat :=
  retryAux f maxRetries 0 maxRetries

theorem retryAux_succeeds {ε α : Type} (f : Nat → Except ε α) (N : Nat)
    (k : Nat) (v : α) (hk : k < N)
    (hfail : ∀ i, i < k → ∃ e, f i = .error e) (hok : f k = .ok v) :
    ∀ r a, a ≤ k → a + r = N → retryAux f N a r = (.ok (some v), k + 1) := by
  intro r
  induction r with
  | zero =>
      intro a ha hr
      omega
  | succ r ih =>
      intro a ha hr
      by_cases hak : a = k
      · subst hak
        simp [retryAux, hok]
      · obtain ⟨e, he⟩ := hfail a (by omega)
        have hne : ¬(a = N - 1) := by omega
        simp only [retryAux, he, hne, if_false]
        exact ih (a + 1) (by omega) (by omega)

theorem retryAux_exhausts {ε α : Type} (f : Nat → Except ε α) (N : Nat)
    (errs : Nat → ε) (hfail : ∀ i, i < N → f i = .error (errs i)) :
    ∀ r a, a < N → a + r = N → retryAux f N a r = (.error (errs (N - 1)), N) := by
  intro r
  induction r with
  | zero =>
      intro a ha hr
      omega
  | succ r ih =>
      intro a ha hr
      by_cases hend : a = N - 1
      · subst hend
        have ha1 : N - 1 + 1 = N := by omega
        simp [retryAux, hfail (N - 1) ha, ha1]
      · simp only [retryAux, hfail a ha, hend, if_false]
        exact ih (a + 1) (by omega) (by omega)

/-- First invocation succeeding with at least one retry available. -/
theorem retry_first_ok {ε α : Type} (f : Nat → Except ε α) (N : Nat) (v : α)
    (hN : 0 < N) (h : f 0 = .ok v) :
    retry_with_backoff f N = (.ok (some v), 1) :=
  retryAux_succeeds f N 0 v hN (by omega) h N 0 (by omega) (by omega)

/-! ## Data model (`src/models.py`) -/

/-- `models.RegistryConfig`. -/
structure RegistryConfig where
  url : String
  username : Option String := none
  password_env_var : Option String := none
  deriving Repr, DecidableEq

/-- `models.ComposeTarget`. -/
structure ComposeTarget where
  name : String
  file : String
  deploy : Bool := true
  build_images : Bool := true
  deriving Repr, DecidableEq

/-- `models.BranchConfig`. -/
structure BranchConfig where
  name : String
  targets : List ComposeTarget
  deriving Repr, DecidableEq

/-- `models.RepoConfig`. -/
structure RepoConfig where
  name : String
  url : String
  auth_method : String := "https"
  ssh_key_path : Option String := none
  registries : Option (List RegistryConfig) := none
  branches : List BranchConfig := []
  deriving Repr, DecidableEq

/-- `models.TargetStatus` (frontend status of one deploy target). -/
structure TargetStatus where
  name : String
  last_deploy_time : Option Nat := none
  status : String := "pending"
  message : String := ""
  deriving Repr, DecidableEq

/-- `models.BranchStatus`. -/
structure BranchStatus where
  branch_name : String
  last_check_time : Option Nat := none
  commit_hash : String := "unknown"
  sync_status : String := "idle"
  targets : List (String × TargetStatus) := []
  deriving Repr, DecidableEq

/-- `models.RepoStatus`. -/
structure RepoStatus where
  repo_name : String
  branches : List (String × BranchStatus) := []
  deriving Repr, DecidableEq

/-! ## The status store (`src/state.py`, class `StateManager`)

A `StoreState` is the full observable state of a `StateManager`:
`status` is the in-memory dict, `saved` the history of snapshots written
to `vigilcd_status.json` (newest first; the file itself only keeps the
head), and `notified` the history of snapshots fanned out to the SSE
listener queues (newest first). -/

/-- Observable state of a `StateManager` instance. -/
structure StoreState where
  status : List (String × RepoStatus) := []
  saved : List (List (String × RepoStatus)) := []
  notified : List (List (String × RepoStatus)) := []
  deriving Repr, DecidableEq

/-- The fresh `StateManager()` at process start. -/
def emptyStore : StoreState := {}

/-- `StateManager.get_repo_status`: returns the repo's entry, creating an
empty one first when absent.  Returns the (possibly extended) dict
together with the entry. -/
def get_repo_status (status : List (String × RepoStatus)) (repo_name : String) :
    List (String × RepoStatus) × RepoStatus :=
  match alistGet status repo_name with
  | some rs => (status, rs)
  | none =>
      let rs : RepoStatus := { repo_name := repo_name }
      (status ++ [(repo_name, rs)], rs)

/-- The keyword arguments accepted by `StateManager.update_branch` at its
call sites in `service.py`: any subset of `sync_status`, `commit_hash`,
`last_check_time`. -/
structure BranchPatch where
  sync_status : Option String := none
  commit_hash : Option String := none
  last_check_time : Option Nat := none
  deriving Repr, DecidableEq

/-- The `setattr` loop of `update_branch`: apply each provided field. -/
def applyBranchPatch (b : BranchStatus) (p : BranchPatch) : BranchStatus :=
  { b with
    sync_status := p.sync_status.getD b.sync_status
    commit_hash := p.commit_hash.getD b.commit_hash
    last_check_time := match p.last_check_time with
      | some t => some t
      | none => b.last_check_time }

/-- `StateManager.update_branch`: lazily creates the repo and branch
entries, applies the patch, then notifies all listeners and saves a
snapshot. -/
def update_branch (s : StoreState) (repo_name branch_name : String)
    (p : BranchPatch) : StoreState :=
  let (st, rs) := get_repo_status s.status repo_name
  let branches :=
    match alistGet rs.branches branch_name with
    | some _ => rs.branches
    | none => rs.branches ++ [(branch_name, { branch_name := branch_name })]
  let b := (alistGet branches branch_name).getD { branch_name := branch_name }
  let b' := applyBranchPatch b p
  let rs' := { rs with branches := alistSet branches branch_name b' }
  let st' := alistSet st repo_name rs'
  { status := st', saved := st' :: s.saved, notified := st' :: s.notified }

/-- `StateManager.update_target`: looks the repo up (creating it if
absent — `get_repo_status` always creates), is a no-op when the branch
entry is missing, otherwise lazily creates the target entry, sets
status/message, stamps `last_deploy_time` when the new status is
`"success"`, then notifies and saves. -/
def update_target (s : StoreState) (repo_name branch_name target_name : String)
    (status : String) (message : String) (now : Nat) : StoreState :=
  let (st, rs) := get_repo_status s.status repo_name
  match alistGet rs.branches branch_name with
  | none => { s with status := st }
  | some b =>
      let targets :=
        match alistGet b.targets target_name with
        | some _ => b.targets
        | none => b.targets ++ [(target_name, { name := target_name })]
      let t := (alistGet targets target_name).getD { name := target_name }
      let t' := { t with
        status := status
        message := message
        last_deploy_time := if status = "success" then some now else t.last_deploy_time }
      let b' := { b with targets := alistSet targets target_name t' }
      let rs' := { rs with branches := alistSet rs.branches branch_name b' }
      let st' := alistSet st repo_name rs'
      { status := st', saved := st' :: s.saved, notified := st' :: s.notified }

/-! ### Observers on store states and snapshots -/

/-- Branch entry stored for `repo/branch`, if any. -/
def getBranch (s : StoreState) (repo branch : String) : Option BranchStatus :=
  (alistGet s.status repo).bind fun rs => alistGet rs.branches branch

/-- Target entry stored for `repo/branch/target`, if any. -/
def getTarget (s : StoreState) (repo branch target : String) : Option TargetStatus :=
  (getBranch s repo branch).bind fun b => alistGet b.targets target

/-- Status string of a target inside one fanned-out/saved snapshot. -/
def snapTargetStatus (snap : List (String × RepoStatus)) (repo branch target : String) :
    Option String :=
  ((alistGet snap repo).bind fun rs =>
    (alistGet rs.branches branch).bind fun b =>
      alistGet b.targets target).map fun t => t.status

/-- `sync_status` projection of a branch entry. -/
def branchSync (s : StoreState) (repo branch : String) : Option String :=
  (getBranch s repo branch).map fun b => b.sync_status

/-! ### Store lemmas -/

theorem getBranch_update_branch (s : StoreState) (r b : String) (p : BranchPatch) :
    getBranch (update_branch s r b p) r b =
      some (applyBranchPatch ((getBranch s r b).getD { branch_name := b }) p) := by
  unfold update_branch get_repo_status getBranch
  rcases hr : alistGet s.status r with _ | rs
  · simp only [hr, Option.bind, Option.none_bind]
    simp [alistGet_set_self, alistGet, Option.bind]
  · simp only [hr]
    rcases hb : alistGet rs.branches b with _ | b0
    · simp only [hb]
      have happ : alistGet (rs.branches ++ [(b, ({ branch_name := b } : BranchStatus))]) b
          = some { branch_name := b } := by
        rw [alistGet_append, hb]
        simp [alistGet]
      simp [alistGet_set_self, happ, Option.bind, hb]
    · simp [hb, alistGet_set_self, Option.bind]

theorem saved_update_branch (s : StoreState) (r b : String) (p : BranchPatch) :
    (update_branch s r b p).saved = (update_branch s r b p).status :: s.saved := by
  unfold update_branch get_repo_status
  rcases hr : alistGet s.status r with _ | rs <;> simp [hr]

theorem notified_update_branch (s : StoreState) (r b : String) (p : BranchPatch) :
    (update_branch s r b p).notified = (update_branch s r b p).status :: s.notified := by
  unfold update_branch get_repo_status
  rcases hr : alistGet s.status r with _ | rs <;> simp [hr]

/-- The branch-missing check inside `update_target` is equivalent to
`getBranch` returning `none` (when the repo is absent, the freshly
created repo entry has no branches). -/
theorem update_target_branch_check (s : StoreState) (r b : String) :
    alistGet (get_repo_status s.status r).2.branches b = getBranch s r b := by
  unfold get_repo_status getBranch
  rcases hr : alistGet s.status r with _ | rs <;> simp [hr, alistGet, Option.bind]

/-- `update_target` on a missing branch leaves everything unchanged
except that the missing repo entry may have been created empty by
`get_repo_status`. -/
theorem update_target_missing_branch (s : StoreState) (r b t status msg : String)
    (now : Nat) (h : getBranch s r b = none) :
    update_target s r b t status msg now = { s with status := (get_repo_status s.status r).1 } := by
  have hcheck := update_target_branch_check s r b
  unfold update_target
  rcases hrs : get_repo_status s.status r with ⟨st, rs⟩
  have : alistGet rs.branches b = none := by
    have := hcheck
    rw [hrs] at this
    simpa [h] using this
  simp [this, hrs]

theorem get_repo_status_of_present (s : List (String × RepoStatus)) (r : String)
    (rs : RepoStatus) (h : alistGet s r = some rs) :
    get_repo_status s r = (s, rs) := by
  unfold get_repo_status
  simp [h]

theorem get_repo_status_of_absent (s : List (String × RepoStatus)) (r : String)
    (h : alistGet s r = none) :
    get_repo_status s r = (s ++ [(r, { repo_name := r })], { repo_name := r }) := by
  unfold get_repo_status
  simp [h]

/-- After a missing-branch `update_target`, every `getBranch` observation
is unchanged. -/
theorem getBranch_update_target_missing (s : StoreState) (r b t status msg : String)
    (now : Nat) (h : getBranch s r b = none) (r' b' : String) :
    getBranch (update_target s r b t status msg now) r' b' = getBranch s r' b' := by
  rw [update_target_missing_branch s r b t status msg now h]
  unfold getBranch get_repo_status
  rcases hr : alistGet s.status r with _ | rs
  · simp only [hr]
    by_cases hrr : r' = r
    · subst hrr
      rw [alistGet_append, hr]
      simp [alistGet, hr, Option.bind]
    · rw [alistGet_append]
      rcases hg : alistGet s.status r' with _ | rs'
      · have hne : ¬(r = r') := fun hx => hrr hx.symm
        have : alistGet [(r, ({ repo_name := r } : RepoStatus))] r' = none := by
          simp [alistGet, hne]
        simp [hg, this]
      · simp [hg]
  · simp [hr]

/-- `update_target` on an existing branch: the target entry afterwards. -/
theorem getTarget_update_target (s : StoreState) (r b t status msg : String)
    (now : Nat) (b0 : BranchStatus) (hb : getBranch s r b = some b0) :
    getTarget (update_target s r b t status msg now) r b t =
      some { (getTarget s r b t).getD { name := t } with
             status := status
             message := msg
             last_deploy_time :=
               if status = "success" then some now
               else ((getTarget s r b t).getD { name := t }).last_deploy_time } := by
  have hrex : ∃ rs, alistGet s.status r = some rs ∧ alistGet rs.branches b = some b0 := by
    unfold getBranch at hb
    rcases hr : alistGet s.status r with _ | rs
    · rw [hr] at hb
      simp [Option.bind] at hb
    · rw [hr] at hb
      exact ⟨rs, rfl, by simpa [Option.bind] using hb⟩
  obtain ⟨rs, hr, hbr⟩ := hrex
  have hT : getTarget s r b t = alistGet b0.targets t := by
    unfold getTarget
    rw [hb, Option.some_bind]
  rw [hT]
  unfold update_target
  rw [get_repo_status_of_present s.status r rs hr]
  simp only [hbr]
  unfold getTarget getBranch
  rcases ht : alistGet b0.targets t with _ | t0
  · have happ : alistGet (b0.targets ++ [(t, ({ name := t } : TargetStatus))]) t
        = some { name := t } := by
      rw [alistGet_append, ht]
      simp [alistGet]
    simp [ht, alistGet_set_self, happ, Option.bind]
  · simp [ht, alistGet_set_self, Option.bind]

/-- `update_target` on an existing branch fans out (and saves) exactly one
new snapshot, which is the updated `status` dict. -/
theorem notified_update_target (s : StoreState) (r b t status msg : String)
    (now : Nat) (b0 : BranchStatus) (hb : getBranch s r b = some b0) :
    (update_target s r b t status msg now).notified
        = (update_target s r b t status msg now).status :: s.notified ∧
      (update_target s r b t status msg now).saved
        = (update_target s r b t status msg now).status :: s.saved := by
  have hrex : ∃ rs, alistGet s.status r = some rs ∧ alistGet rs.branches b = some b0 := by
    unfold getBranch at hb
    rcases hr : alistGet s.status r with _ | rs
    · rw [hr] at hb
      simp [Option.bind] at hb
    · rw [hr] at hb
      exact ⟨rs, rfl, by simpa [Option.bind] using hb⟩
  obtain ⟨rs, hr, hbr⟩ := hrex
  unfold update_target
  rw [get_repo_status_of_present s.status r rs hr]
  simp [hbr]

/-- A fanned-out snapshot's target status is the store's target status:
the snapshot is the dict itself. -/
theorem snapTargetStatus_eq (s : StoreState) (r b t : String) :
    snapTargetStatus s.status r b t = (getTarget s r b t).map fun x => x.status := by
  unfold snapTargetStatus getTarget getBranch
  rcases hr : alistGet s.status r with _ | rs
  · simp [Option.bind]
  · rcases hb : alistGet rs.branches b with _ | b0 <;> simp [hb, Option.bind]

/-- `update_target` never changes any branch's `sync_status` (it only
touches the targets dict of the named branch). -/
theorem branchSync_update_target (s : StoreState) (r b t status msg : String)
    (now : Nat) (r' b' : String) :
    branchSync (update_target s r b t status msg now) r' b' = branchSync s r' b' := by
  rcases hb : getBranch s r b with _ | b0
  · rw [branchSync, getBranch_update_target_missing s r b t status msg now hb]
    rfl
  · have hrex : ∃ rs, alistGet s.status r = some rs ∧ alistGet rs.branches b = some b0 := by
      unfold getBranch at hb
      rcases hr : alistGet s.status r with _ | rs
      · rw [hr] at hb
        simp [Option.bind] at hb
      · rw [hr] at hb
        exact ⟨rs, rfl, by simpa [Option.bind] using hb⟩
    obtain ⟨rs, hr, hbr⟩ := hrex
    unfold branchSync getBranch update_target
    rw [get_repo_status_of_present s.status r rs hr]
    simp only [hbr]
    by_cases hrr : r' = r
    · subst hrr
      rw [alistGet_set_self]
      simp only [Option.bind, hr]
      by_cases hbb : b' = b
      · subst hbb
        rw [alistGet_set_self, hbr]
        rfl
      · rw [alistGet_set_ne _ _ _ _ hbb]
    · rw [alistGet_set_ne _ _ _ _ hrr]

/-! ## String helpers mirroring the Python primitives used by `service.py` -/

/-- Python `str.split()` (no argument): split on runs of whitespace,
dropping empty pieces.  Char-level transcription. -/
def pySplitWsAux : List Char → List Char → List String
  | [], [] => []
  | [], cur => [String.mk cur.reverse]
  | c :: cs, cur =>
      if c.isWhitespace then
        match cur with
        | [] => pySplitWsAux cs []
        | _ => String.mk cur.reverse :: pySplitWsAux cs []
      else pySplitWsAux cs (c :: cur)

/-- `s.strip().split()` — stripping first changes nothing for the
no-argument split. -/
def pySplitWs (s : String) : List String :=
  pySplitWsAux s.data []

/-- Python `s.split()[0]`, `none` when the split is empty (in which case
the Python code raises `IndexError`). -/
def firstWord (s : String) : Option String :=
  (pySplitWs s).head?

/-- Python `s[:7]` (ASCII hashes: byte slicing = char slicing). -/
def pyTake7 (s : String) : String :=
  String.mk (s.data.take 7)

/-- Python `s[-n:]`. -/
def pyLastN (n : Nat) (s : String) : String :=
  String.mk (s.data.drop (s.data.length - n))

/-- Python `f"{repo}_{branch}_{target}".lower().replace("-", "_")`.
`.lower()` maps each character to lower case and `.replace` with the
one-character pattern `"-"` substitutes each `'-'`; both are per-character
maps, transcribed as such. -/
def pyLowerReplaceDash (s : String) : String :=
  String.mk ((s.data.map Char.toLower).map fun c => if c = '-' then '_' else c)

/-- Project name computed by `deploy_target` (service.py:631-633). -/
def deployProjectName (repo branch target : String) : String :=
  pyLowerReplaceDash (repo ++ "_" ++ branch ++ "_" ++ target)

/-- Project name computed by `check_actual_target_state`
(service.py:736-738). -/
def healthProjectName (repo branch target : String) : String :=
  pyLowerReplaceDash (repo ++ "_" ++ branch ++ "_" ++ target)

/-! ## The health checker (`DeploymentService.check_actual_target_state`) -/

/-- Oracle for the docker interactions of one health check:
`psResult project` is the outcome of
`docker compose -p <project> -f <file> ps --services --filter status=running`
(`.ok (returncode, stdout)`, run with `check=False`; `.error` a raised
exception such as `TimeoutExpired`). -/
structure HealthEnv where
  daemonRunning : Bool
  dockerFound : Bool
  psResult : String → Except String (Int × String)

/-- `check_actual_target_state`: `daemon_unavailable` when the daemon
probe fails; otherwise any exception (missing executable, subprocess
error) yields `error_check`; a non-empty `--services` output yields
`running` before the exit code is even consulted; exit code 0 with empty
output yields `stopped`; any other exit code `error_check`. -/
def check_actual_target_state (env : HealthEnv) (repoName branchName : String)
    (target : ComposeTarget) : String :=
  if ¬env.daemonRunning then "daemon_unavailable"
  else if ¬env.dockerFound then "error_check"
  else
    match env.psResult (healthProjectName repoName branchName target.name) with
    | .error _ => "error_check"
    | .ok (returncode, stdout) =>
        if pySplitWs stdout ≠ [] then "running"
        else if returncode = 0 then "stopped"
        else "error_check"

/-! ## Registry login/logout (`docker_login_registries`,
`docker_logout_registries`) -/

/-- Outcome of the `docker compose up -d` subprocess inside
`deploy_target`: completed successfully, `CalledProcessError` (with
stderr/stdout), `TimeoutExpired`, or any other exception. -/
inductive ComposeOutcome where
  | ok
  | calledProcessError (stderr stdout : String)
  | timeout
  | exc (msg : String)
  deriving Repr, DecidableEq

/-- Oracle for the docker interactions of one deployment:
`validation file` is `validate_docker_compose_env(file, cwd)`;
`getenv` is `os.getenv`; `loginResult url` the outcome of
`docker login` for that registry; `composeResult project` the outcome of
`docker compose ... up -d`; `logoutResult url` the outcome of
`docker logout url` (`.ok code` a completed process, `.error` a raised
exception). -/
structure DeployEnv where
  daemonRunning : Bool
  dockerFound : Bool
  validation : String → Bool × List String
  getenv : String → Option String
  loginResult : String → Except String Unit
  composeResult : String → ComposeOutcome
  logoutResult : String → Except String Int
  composeTimeoutSeconds : Nat := 300

/-- The registry loop of `docker_login_registries`: skips registries
without a username, aborts returning `False` when a password variable is
unset or a login subprocess fails/times out, collects the urls logged in
so far.  Returns (overall result, successfully-logged-in urls in
order). -/
def loginLoop (env : DeployEnv) (acc : List String) :
    List RegistryConfig → Bool × List String
  | [] => (true, acc)
  | registry :: rest =>
      match registry.username with
      | none => loginLoop env acc rest
      | some _ =>
          match registry.password_env_var.bind env.getenv with
          | none => (false, acc)
          | some _ =>
              match env.loginResult registry.url with
              | .ok _ => loginLoop env (acc ++ [registry.url]) rest
              | .error _ => (false, acc)

/-- `docker_login_registries`: `True` for no/empty registry list; `False`
when the docker executable is missing; otherwise the registry loop. -/
def docker_login_registries (env : DeployEnv)
    (registries : Option (List RegistryConfig)) : Bool × List String :=
  match registries with
  | none => (true, [])
  | some [] => (true, [])
  | some rs =>
      if ¬env.dockerFound then (false, [])
      else loginLoop env [] rs

/-- `docker_logout_registries`: returns the urls for which a logout
subprocess is attempted — every configured registry with a username,
regardless of individual failures (each failure is only logged).  With
no registries or a missing docker executable, nothing is attempted. -/
def docker_logout_registries (env : DeployEnv)
    (registries : Option (List RegistryConfig)) : List String :=
  match registries with
  | none => []
  | some [] => []
  | some rs =>
      if ¬env.dockerFound then []
      else (rs.filter fun r => r.username.isSome).map fun r => r.url

/-! ## The deployment executor (`DeploymentService.deploy_target`) -/

/-- Python `s[:n]`. -/
def pyTakeN (n : Nat) (s : String) : String :=
  String.mk (s.data.take n)

/-- Externally observable calls made during a reconciliation pass, in
order: a health check of a target, a `deploy_target` invocation, a
`skipped` record for a deploy-disabled target, a `docker logout`
attempt for a registry url. -/
inductive Action where
  | health (target : String)
  | deployCall (target : String)
  | skip (target : String)
  | logoutAttempt (url : String)
  deriving Repr, DecidableEq

/-- `deploy_target`: daemon probe, environment validation, `deploying`
status, registry login, `docker compose up -d`, outcome classification,
and the `finally` block that logs out of the registries exactly when the
whole login phase succeeded.  Returns the new store plus the logout
attempts made by the `finally` block. -/
def deploy_target (env : DeployEnv) (s : StoreState) (repoName branchName : String)
    (registries : Option (List RegistryConfig)) (target : ComposeTarget)
    (now : Nat) : StoreState × List Action :=
  if ¬env.daemonRunning then
    (update_target s repoName branchName target.name "error"
      "Docker daemon unavailable" now, [])
  else
    let (is_valid, _warnings) := env.validation target.file
    if ¬is_valid then
      (update_target s repoName branchName target.name "error"
        "Missing environment configuration" now, [])
    else
      let s := update_target s repoName branchName target.name "deploying"
        "Starting deployment..." now
      if ¬env.dockerFound then
        -- `_get_executable_path("docker")` raises `DeploymentError` inside
        -- the try block; caught by the generic `except Exception` handler;
        -- the `finally` block sees `login_successful == False`.
        (update_target s repoName branchName target.name "error"
          ("Unexpected error: " ++ pyTakeN 100 "Executable 'docker' not found in PATH.") now, [])
      else
        let (login_successful, _logged_in) := docker_login_registries env registries
        if ¬login_successful then
          (update_target s repoName branchName target.name "error"
            "Docker registry login failed" now, [])
        else
          let project_name := deployProjectName repoName branchName target.name
          let s :=
            match env.composeResult project_name with
            | .ok =>
                update_target s repoName branchName target.name "success" "Running" now
            | .calledProcessError stderr stdout =>
                update_target s repoName branchName target.name "error"
                  ("Deployment error: " ++
                    pyLastN 500 (if stderr ≠ "" then stderr else stdout)) now
            | .timeout =>
                update_target s repoName branchName target.name "error"
                  ("Timeout after " ++ toString env.composeTimeoutSeconds ++ "s") now
            | .exc msg =>
                update_target s repoName branchName target.name "error"
                  ("Unexpected error: " ++ pyTakeN 100 msg) now
          (s, (docker_logout_registries env registries).map Action.logoutAttempt)

/-! ## The reconciliation engine (`DeploymentService.check_and_update`) -/

/-- Oracle for one reconciliation pass of a repo/branch lane.
`cloneResults`, `lsRemote` and `pullResults` give the outcome of the
respective git subprocess on its `attempt`-th invocation (0-indexed, as
seen by the retry executor); `localHead` is `repo.head.commit.hexsha`;
`headAfterPull` the head hash after a successful fetch/reset;
`fileExists`/`globalSshKey` model `os.path.exists` and
`config.get_ssh_key_path()`; `gitRetryCount` is
`config.scheduling.git_retry_count`. -/
structure SyncEnv where
  repoExistsLocally : Bool
  cloneResults : Nat → Except String Unit
  lsRemote : Nat → Except String String
  localHead : String
  pullResults : Nat → Except String Unit
  headAfterPull : String
  fileExists : String → Bool
  globalSshKey : Option String
  gitRetryCount : Nat
  health : HealthEnv
  deploy : DeployEnv

/-- `DeploymentService._get_git_env`: for ssh auth, resolve the key path
(repo-specific or global) and require the file to exist; both failures
raise `GitOperationError`. -/
def get_git_env (env : SyncEnv) (rc : RepoConfig) : Except String Unit :=
  if rc.auth_method = "ssh" then
    match rc.ssh_key_path <|> env.globalSshKey with
    | none => .error ("SSH auth for " ++ rc.name ++ " requires ssh_key_path")
    | some key =>
        if ¬env.fileExists key then .error ("SSH key not found: " ++ key)
        else .ok ()
  else .ok ()

/-- The `clone` closure inside `ensure_repo`: any failure (including a
git-env failure) is wrapped into a `GitOperationError`, so every failure
is retried. -/
def cloneOnce (env : SyncEnv) (rc : RepoConfig) (attempt : Nat) : Except String Unit :=
  match get_git_env env rc with
  | .error e => .error ("Clone failed: " ++ e)
  | .ok _ =>
      match env.cloneResults attempt with
      | .ok _ => .ok ()
      | .error e => .error ("Clone failed: " ++ e)

/-- `ensure_repo`: `.ok is_new`; a clone failure surviving the retry
executor propagates (`.error`). -/
def ensure_repo (env : SyncEnv) (rc : RepoConfig) : Except String Bool :=
  if env.repoExistsLocally then .ok false
  else
    match (retry_with_backoff (cloneOnce env rc) env.gitRetryCount).1 with
    | .error e => .error e
    | .ok _ => .ok true

/-- The `fetch_remote_info` closure: `ls-remote` failures become
`GitOperationError`s, and an empty output raises a `GitOperationError`
inside the retried closure (so it too is retried). -/
def fetch_remote_info (env : SyncEnv) (bc : BranchConfig) (attempt : Nat) :
    Except String String :=
  match env.lsRemote attempt with
  | .error e => .error ("ls-remote failed: " ++ e)
  | .ok out =>
      if out = "" then
        .error ("Remote returned empty for branch '" ++ bc.name ++ "'. Does it exist?")
      else .ok out

/-- The `pull_changes` closure (fetch + hard reset + clean): git failures
become `GitOperationError`s. -/
def pullOnce (env : SyncEnv) (attempt : Nat) : Except String Unit :=
  match env.pullResults attempt with
  | .ok _ => .ok ()
  | .error e => .error ("Fetch/Reset failed: " ++ e)

/-- Step 4 of `check_and_update` (service.py:527-535): health-check the
targets in order, stopping at (`break`) the first target whose actual
state is in `["stopped", "daemon_unavailable", "error_check"]`; that
target sets `deployment_required`.  Returns the flag and the health-check
trace. -/
def driftLoop (henv : HealthEnv) (repoName branchName : String) :
    List ComposeTarget → Bool × List Action
  | [] => (false, [])
  | t :: ts =>
      let actual_state := check_actual_target_state henv repoName branchName t
      if actual_state ∈ (["stopped", "daemon_unavailable", "error_check"] : List String) then
        (true, [Action.health t.name])
      else
        let (req, tr) := driftLoop henv repoName branchName ts
        (req, Action.health t.name :: tr)

/-- Step 5 of `check_and_update` (service.py:538-549): deploy each
target with `deploy=true`, record `skipped` for the others. -/
def deployLoop (denv : DeployEnv) (registries : Option (List RegistryConfig))
    (repoName branchName : String) (now : Nat) :
    List ComposeTarget → StoreState → StoreState × List Action
  | [], s => (s, [])
  | t :: ts, s =>
      if t.deploy then
        let (s', acts) := deploy_target denv s repoName branchName registries t now
        let (s'', rest) := deployLoop denv registries repoName branchName now ts s'
        (s'', (Action.deployCall t.name :: acts) ++ rest)
      else
        let s' := update_target s repoName branchName t.name "skipped" "Deploy disabled" now
        let (s'', rest) := deployLoop denv registries repoName branchName now ts s'
        (s'', Action.skip t.name :: rest)

/-- Steps 4 and 5 of `check_and_update`: drift detection runs only when
no git update happened (`deployment_required` is already true after a
pull); then the deployment loop if required. -/
def syncTail (env : SyncEnv) (now : Nat) (rc : RepoConfig) (bc : BranchConfig)
    (s : StoreState) (git_updated : Bool) : StoreState × List Action :=
  let (deployment_required, healthActs) :=
    if ¬git_updated then driftLoop env.health rc.name bc.name bc.targets
    else (true, [])
  if deployment_required then
    let (s', acts) := deployLoop env.deploy rc.registries rc.name bc.name now bc.targets s
    (s', healthActs ++ acts)
  else (s, healthActs)

/-- `DeploymentService.check_and_update`: one reconciliation pass.

The initial `update_branch(..., "checking", last_check_time=now)` sits
before the top-level `try`.  `GitOperationError`s from the ls-remote or
pull retry loops are caught by the inner `except GitOperationError`
(branch marked `error`, early return, no deploy).  Failures of
`ensure_repo`, a `None` retry result (`max_retries = 0`, so
`None.split()` raises `AttributeError`) and an empty `split()` result
(`IndexError`) reach the top-level `except Exception`, which also marks
the branch `error` and returns normally.  The function is total: every
path returns a store plus the trace of external calls. -/
def check_and_update (env : SyncEnv) (now : Nat) (rc : RepoConfig) (bc : BranchConfig)
    (s0 : StoreState) : StoreState × List Action :=
  let s := update_branch s0 rc.name bc.name
    { sync_status := some "checking", last_check_time := some now }
  match ensure_repo env rc with
  | .error _ =>
      (update_branch s rc.name bc.name { sync_status := some "error" }, [])
  | .ok is_new =>
      match get_git_env env rc with
      | .error _ =>
          (update_branch s rc.name bc.name { sync_status := some "error" }, [])
      | .ok _ =>
          match (retry_with_backoff (fetch_remote_info env bc) env.gitRetryCount).1 with
          | .error _ =>
              (update_branch s rc.name bc.name { sync_status := some "error" }, [])
          | .ok none =>
              (update_branch s rc.name bc.name { sync_status := some "error" }, [])
          | .ok (some ls_remote_output) =>
              match firstWord ls_remote_output with
              | none =>
                  (update_branch s rc.name bc.name { sync_status := some "error" }, [])
              | some remote_commit_hash =>
                  let s := update_branch s rc.name bc.name
                    { commit_hash := some (pyTake7 remote_commit_hash) }
                  if env.localHead ≠ remote_commit_hash ∨ is_new = true then
                    let s := update_branch s rc.name bc.name
                      { sync_status := some "pulling" }
                    match (retry_with_backoff (pullOnce env) env.gitRetryCount).1 with
                    | .error _ =>
                        (update_branch s rc.name bc.name { sync_status := some "error" }, [])
                    | .ok _ =>
                        let s := update_branch s rc.name bc.name
                          { sync_status := some "idle"
                            commit_hash := some (pyTake7 env.headAfterPull) }
                        syncTail env now rc bc s true
                  else
                    let s := update_branch s rc.name bc.name { sync_status := some "idle" }
                    syncTail env now rc bc s false

/-! ## The environment validator (`src/docker_env_validator.py`) -/

/-- Result of `yaml.safe_load` on the compose manifest: strings, scalars
that are not strings (`None`, numbers, booleans — never scanned for
variables), sequences and mappings. -/
inductive Yaml where
  | str (s : String)
  | scalar
  | list (xs : List Yaml)
  | map (kvs : List (String × Yaml))

/-- `[A-Z0-9_]` (the character class of both env-var regexes). -/
def isVarChar (c : Char) : Bool :=
  ('A' ≤ c && c ≤ 'Z') || ('0' ≤ c && c ≤ '9') || c == '_'

/-- The maximal run of `[A-Z0-9_]` characters at the head of the input,
and the remainder (the `takeWhile`/`drop` pair a regex engine performs
for `([A-Z0-9_]+)`). -/
def scanName : List Char → List Char × List Char
  | [] => ([], [])
  | c :: cs =>
      if isVarChar c then
        let (n, r) := scanName cs
        (c :: n, r)
      else ([], c :: cs)

theorem scanName_length_le (l : List Char) : (scanName l).2.length ≤ l.length := by
  induction l with
  | nil => simp [scanName]
  | cons c cs ih =>
      by_cases h : isVarChar c <;> simp [scanName, h]
      omega

/-- `re.findall(r"\$\{([A-Z0-9_]+)\}", text)`: each match is `${`, one or
more var chars, `}`; on a failed match the scan resumes one character
after the `$` (the `'{'` there can never start a match, so it is
skipped directly).  A `${VAR:-default}` reference never matches (the
`:` stops the class before the `}`). -/
def findBraced : List Char → List String
  | [] => []
  | '$' :: rest =>
      match rest with
      | '{' :: rest2 =>
          match h : scanName rest2 with
          | ([], _) => findBraced rest2
          | (c :: name, rest3) =>
              match rest3 with
              | '}' :: rest4 => String.mk (c :: name) :: findBraced rest4
              | _ => findBraced rest2
      | r => findBraced r
  | _ :: rest => findBraced rest
termination_by l => l.length
decreasing_by
  all_goals first
    | (simp
       omega)
    | (have hle := scanName_length_le rest2
       rw [h] at hle
       simp at hle ⊢
       omega)
    | (simp_all
       omega)
    | simp_all

/-- `re.findall(r"\$([A-Z0-9_]+)", text)`: `$` followed by one or more
var chars; a `${...}` reference never matches (the `{` stops the
class). -/
def findPlain : List Char → List String
  | [] => []
  | '$' :: rest =>
      match h : scanName rest with
      | ([], _) => findPlain rest
      | (c :: name, rest3) => String.mk (c :: name) :: findPlain rest3
  | _ :: rest => findPlain rest
termination_by l => l.length
decreasing_by
  all_goals first
    | (simp
       omega)
    | (have hle := scanName_length_le rest
       rw [h] at hle
       simp at hle ⊢
       omega)
    | (simp_all
       omega)
    | simp_all

/-- `_extract_vars_from_string`: run both patterns of
`ENV_VAR_PATTERNS` over the text and collect all matches. -/
def extractVars (text : String) : List String :=
  findBraced text.data ++ findPlain text.data

/-! The four mutually recursive functions below transcribe
`_search_env_vars_recursive`: an `environment:` mapping contributes only
its string values; every other string anywhere is scanned; non-string
scalars are ignored. -/

mutual

def searchYaml : Yaml → List String
  | .str s => extractVars s
  | .scalar => []
  | .list xs => searchYamlList xs
  | .map kvs => searchYamlMap kvs

def searchYamlList : List Yaml → List String
  | [] => []
  | y :: ys => searchYaml y ++ searchYamlList ys

def searchYamlMap : List (String × Yaml) → List String
  | [] => []
  | (k, v) :: rest =>
      (if k = "environment" then
        match v with
        | .map envkvs => envValues envkvs
        | _ => searchYaml v
      else searchYaml v) ++ searchYamlMap rest

def envValues : List (String × Yaml) → List String
  | [] => []
  | (_, .str s) :: rest => extractVars s ++ envValues rest
  | _ :: rest => envValues rest

end

/-- `_normalize_env_file_list`: a string becomes a singleton, a list is
converted element-wise with `str(...)`, anything else normalizes to
`[]`. -/
def normalize_env_file_list (v : Yaml) : List String :=
  match v with
  | .str s => [s]
  | .list xs => xs.map fun y => match y with | .str s => s | _ => "?"
  | _ => []

/-- Filesystem / process-environment oracle for one validation run:
`composeFileExists` is the constructor's existence check;
`parse` the outcome of `yaml.safe_load` (`.error` a `YAMLError` or read
failure); `fileExists` checks referenced `env_file` paths (already
joined to the working directory); `osEnv` the keys of `os.environ`;
`dotEnvLines` the lines of `<working_dir>/.env` when `dotEnvExists`. -/
structure VEnv where
  composeFileExists : Bool
  parse : Except String Yaml
  fileExists : String → Bool
  osEnv : List String
  dotEnvExists : Bool
  dotEnvLines : List String

/-- `_check_env_files`: collect `env_file` directives (top-level and
per-service) and warn for each referenced file that does not exist.
Python iterates the config with `in`, `.get` and `.items()`; on a
non-mapping manifest those raise (`TypeError`/`AttributeError`), which
the caller's generic handler turns into a single validation-error
warning — modelled as `.error`. -/
def check_env_files (venv : VEnv) (wd : String) (cfg : Yaml) :
    Except String (List String) :=
  match cfg with
  | .map kvs =>
      let globalFiles :=
        match alistGet kvs "env_file" with
        | some v => normalize_env_file_list v
        | none => []
      match alistGet kvs "services" with
      | some (.map services) =>
          let serviceFiles := services.flatMap fun p =>
            match p.2 with
            | .map svc =>
                match alistGet svc "env_file" with
                | some v => normalize_env_file_list v
                | none => []
            | _ => []
          let env_files := (globalFiles ++ serviceFiles).dedup
          .ok ((env_files.filter fun f => ¬venv.fileExists (wd ++ "/" ++ f)).map
            fun f => "Referenced env_file not found: " ++ f ++
              " (expected at: " ++ wd ++ "/" ++ f ++ ")")
      | some _ => .error "services is not a mapping"
      | none =>
          let env_files := globalFiles.dedup
          .ok ((env_files.filter fun f => ¬venv.fileExists (wd ++ "/" ++ f)).map
            fun f => "Referenced env_file not found: " ++ f ++
              " (expected at: " ++ wd ++ "/" ++ f ++ ")")
  | _ => .error "compose config is not a mapping"

/-- One line of `_load_env_file`: strip, skip blanks and `#` comments,
split on the first `=`, return the stripped key. -/
def parseEnvLine (line : String) : Option String :=
  let l := line.trim
  if l = "" then none
  else if l.startsWith "#" then none
  else if l.contains '=' then some ((l.splitOn "=").headD "").trim
  else none

/-- `_load_env_file`: the keys defined by the `.env` file. -/
def load_env_file_keys (venv : VEnv) : List String :=
  venv.dotEnvLines.filterMap parseEnvLine

/-- `_check_missing_vars`: required variables available neither in the
process environment nor in the colocated `.env` file. -/
def check_missing_vars (venv : VEnv) (required : List String) : List String :=
  let available :=
    venv.osEnv ++ (if venv.dotEnvExists then load_env_file_keys venv else [])
  (required.filter fun v => ¬available.contains v).dedup

/-- `DockerComposeEnvValidator.validate`, the body of its `try`:
parse, env_file warnings, extract required vars, missing-vars warning;
`is_valid` is the emptiness of the warning list. -/
def validateBody (venv : VEnv) (wd : String) : Except String (Bool × List String) :=
  match venv.parse with
  | .error e => .error ("Invalid YAML in compose file: " ++ e)
  | .ok cfg =>
      match check_env_files venv wd cfg with
      | .error e => .error e
      | .ok env_file_warnings =>
          let required_vars := searchYaml cfg
          let missing_vars := check_missing_vars venv required_vars
          let warnings := env_file_warnings ++
            (if missing_vars ≠ [] then
              ["Missing environment variables: " ++ String.intercalate ", " missing_vars]
            else [])
          .ok (warnings.isEmpty, warnings)

/-- `DockerComposeEnvValidator.validate`: the generic `except Exception`
turns any failure into `(False, [single validation-error warning])`. -/
def validate (venv : VEnv) (wd : String) : Bool × List String :=
  match validateBody venv wd with
  | .ok r => r
  | .error e => (false, ["Validation error: " ++ e])

/-- Module-level `validate_docker_compose_env`: the constructor's
missing-compose-file `EnvValidationError` is caught here and reported as
the single warning. -/
def validate_docker_compose_env (venv : VEnv) (compose_file working_dir : String) :
    Bool × List String :=
  if ¬venv.composeFileExists then
    (false, ["Compose file not found: " ++ working_dir ++ "/" ++ compose_file])
  else validate venv working_dir

/-! ## Claim C1 — the retry executor -/

/-- **C1**: for a function wrapped by `_retry_with_backoff` with `N`
configured retries, all failures being the recoverable git category: if
it fails exactly `k < N` times and then succeeds, it is invoked exactly
`k + 1` times and the retry executor returns the success value; if it
fails on every invocation (and `N ≥ 1`), it is invoked exactly `N` times
and the last error is re-raised. -/
theorem retry_executor_spec {ε α : Type} (f : Nat → Except ε α) (N : Nat) :
    (∀ k v, k < N → (∀ i, i < k → ∃ e, f i = .error e) → f k = .ok v →
      retry_with_backoff f N = (.ok (some v), k + 1)) ∧
    (∀ errs : Nat → ε, 1 ≤ N → (∀ i, i < N → f i = .error (errs i)) →
      retry_with_backoff f N = (.error (errs (N - 1)), N)) := by
  constructor
  · intro k v hk hfail hok
    exact retryAux_succeeds f N k v hk hfail hok N 0 (Nat.zero_le k) (by omega)
  · intro errs hN hfail
    exact retryAux_exhausts f N errs hfail N 0 (by omega) (by omega)

/-- Witness for C1: a function failing once then succeeding with 42 is
invoked twice under 3 retries and returns 42; a function that always
fails is invoked three times and its last error is re-raised. -/
theorem retry_executor_spec_witness :
    retry_with_backoff
        (fun i => if i = 0 then (.error "transient" : Except String Nat) else .ok 42) 3
      = (.ok (some 42), 2) ∧
    retry_with_backoff (fun _ => (.error "down" : Except String Nat)) 3
      = (.error "down", 3) := by
  constructor
  · exact (retry_executor_spec
      (fun i => if i = 0 then (.error "transient" : Except String Nat) else .ok 42) 3).1
      1 42 (by omega)
      (fun i hi => ⟨"transient", by simp [Nat.lt_one_iff.mp hi]⟩) rfl
  · exact (retry_executor_spec (fun _ => (.error "down" : Except String Nat)) 3).2
      (fun _ => "down") (by omega) (fun i _ => rfl)

/-! ## Claim C10 — totality and output precedence of the health checker -/

/-- **C10**: `check_actual_target_state` always returns one of the four
state strings (every failure mode is caught), and whenever the
`compose ps` subprocess writes at least one service name to stdout the
result is `"running"` even for a non-zero exit code — the non-empty
output check precedes the exit-code check. -/
theorem health_check_total_and_output_precedence (env : HealthEnv)
    (repoName branchName : String) (target : ComposeTarget) :
    check_actual_target_state env repoName branchName target ∈
      (["running", "stopped", "daemon_unavailable", "error_check"] : List String) ∧
    (∀ code out, env.daemonRunning = true → env.dockerFound = true →
      env.psResult (healthProjectName repoName branchName target.name) = .ok (code, out) →
      pySplitWs out ≠ [] →
      check_actual_target_state env repoName branchName target = "running") := by
  constructor
  · unfold check_actual_target_state
    rcases hd : env.daemonRunning with _ | _
    · simp [hd]
    · rcases hk : env.dockerFound with _ | _
      · simp [hd, hk]
      · rcases hp : env.psResult (healthProjectName repoName branchName target.name)
          with e | ⟨code, out⟩
        · simp [hd, hk, hp]
        · by_cases ho : pySplitWs out = [] <;> by_cases hc : code = 0 <;>
            simp [hd, hk, hp, ho, hc]
  · intro code out hd hk hp ho
    unfold check_actual_target_state
    simp [hd, hk, hp, ho]

/-- Witness for C10: with a reachable daemon, exit code 1 and stdout
`"web db"`, the checker reports `"running"`. -/
theorem health_check_output_precedence_witness :
    check_actual_target_state
      { daemonRunning := true, dockerFound := true, psResult := fun _ => .ok (1, "web db") }
      "demo" "main" { name := "web", file := "docker-compose.yml" } = "running" := by
  exact (health_check_total_and_output_precedence
    { daemonRunning := true, dockerFound := true, psResult := fun _ => .ok (1, "web db") }
    "demo" "main" { name := "web", file := "docker-compose.yml" }).2
    1 "web db" rfl rfl rfl (by decide)

/-! ## Claim C9 — compose project naming -/

theorem pyLowerReplaceDash_append (a b : String) :
    pyLowerReplaceDash (a ++ b) = pyLowerReplaceDash a ++ pyLowerReplaceDash b := by
  show String.mk _ = String.mk _ ++ String.mk _
  have : (a ++ b).data = a.data ++ b.data := rfl
  simp only [pyLowerReplaceDash, this, List.map_append]
  rfl

theorem pyLowerReplaceDash_cancel (p a b : String)
    (h : pyLowerReplaceDash (p ++ a) = pyLowerReplaceDash (p ++ b)) :
    pyLowerReplaceDash a = pyLowerReplaceDash b := by
  rw [pyLowerReplaceDash_append p a, pyLowerReplaceDash_append p b] at h
  have hdata := congrArg String.data h
  have hpre : ∀ x y : String, (x ++ y).data = x.data ++ y.data := fun _ _ => rfl
  rw [hpre, hpre] at hdata
  have hcancel := List.append_cancel_left hdata
  exact congrArg String.mk hcancel

/-- **C9** (amended): the project name computed by `deploy_target`
coincides with the one computed by `check_actual_target_state` and is a
deterministic function of repo, branch and target names (it is a pure
function of these three strings); two distinct targets of the same
branch get distinct project names *provided* their lower-cased,
hyphen-replaced forms are distinct (names differing only by letter case
or by `-` vs `_` do collide — see the counterexample). -/
theorem project_name_consistency (repo branch target : String) :
    deployProjectName repo branch target = healthProjectName repo branch target ∧
    (∀ t1 t2 : String, pyLowerReplaceDash t1 ≠ pyLowerReplaceDash t2 →
      deployProjectName repo branch t1 ≠ deployProjectName repo branch t2) := by
  constructor
  · rfl
  · intro t1 t2 hne heq
    exact hne (pyLowerReplaceDash_cancel (repo ++ "_" ++ branch ++ "_") t1 t2 heq)

/-- Witness for C9 (amended): targets `web` and `api` of `demo/main` get
the distinct project names `demo_main_web` and `demo_main_api`. -/
theorem project_name_consistency_witness :
    deployProjectName "demo" "main" "web" = healthProjectName "demo" "main" "web" ∧
    deployProjectName "demo" "main" "web" ≠ deployProjectName "demo" "main" "api" := by
  constructor
  · exact (project_name_consistency "demo" "main" "web").1
  · exact (project_name_consistency "demo" "main" "web").2 "web" "api" (by decide)

/-- **C9** counterexample: the distinct targets `web-1` and `web_1` of
the same branch collide — both project names are `demo_main_web_1` —
refuting the claim that two distinct targets never collide. -/
theorem project_name_collision :
    deployProjectName "demo" "main" "web-1" = deployProjectName "demo" "main" "web_1" ∧
    ("web-1" : String) ≠ "web_1" := by
  constructor
  · decide
  · decide

/-! ## Claim C8 — the environment validator's result invariant -/

/-- Every normal (`try`-block) result of `validate` pairs the warning
list with its own emptiness check. -/
theorem validateBody_shape (venv : VEnv) (wd : String) (r : Bool × List String)
    (h : validateBody venv wd = .ok r) : r.1 = r.2.isEmpty := by
  unfold validateBody at h
  split at h
  · simp at h
  · split at h
    · simp at h
    · simp only [Except.ok.injEq] at h
      rcases h with rfl
      rfl

/-- **C8**: `validate_docker_compose_env` returns `(is_valid, warnings)`
with `is_valid = false` iff `warnings` is non-empty; and for a manifest
that cannot be parsed it returns `is_valid = false` with exactly the one
validation-error warning. -/
theorem validate_env_spec (venv : VEnv) (compose_file working_dir : String) :
    ((validate_docker_compose_env venv compose_file working_dir).1 = true ↔
      (validate_docker_compose_env venv compose_file working_dir).2 = []) ∧
    (venv.composeFileExists = true → ∀ e, venv.parse = .error e →
      (validate_docker_compose_env venv compose_file working_dir).1 = false ∧
      (validate_docker_compose_env venv compose_file working_dir).2 =
        ["Validation error: " ++ ("Invalid YAML in compose file: " ++ e)]) := by
  constructor
  · unfold validate_docker_compose_env
    rcases hex : venv.composeFileExists with _ | _
    · simp [hex]
    · simp only [hex, Bool.not_true, Bool.false_eq_true, if_false]
      unfold validate
      rcases hb : validateBody venv working_dir with e | r
      · simp
      · have := validateBody_shape venv working_dir r hb
        rcases r with ⟨b, w⟩
        simp only at this
        subst this
        simp [List.isEmpty_iff]
  · intro hex e hp
    unfold validate_docker_compose_env validate validateBody
    simp [hex, hp, Except.bind]

/-- Witness for C8: an unparsable manifest yields `is_valid = false` and
the single validation-error warning. -/
theorem validate_env_spec_witness :
    (validate_docker_compose_env
        { composeFileExists := true, parse := .error "bad", fileExists := fun _ => false,
          osEnv := [], dotEnvExists := false, dotEnvLines := [] }
        "docker-compose.yml" "/repo").1 = false ∧
    (validate_docker_compose_env
        { composeFileExists := true, parse := .error "bad", fileExists := fun _ => false,
          osEnv := [], dotEnvExists := false, dotEnvLines := [] }
        "docker-compose.yml" "/repo").2 =
      ["Validation error: Invalid YAML in compose file: bad"] := by
  have h := (validate_env_spec
    { composeFileExists := true, parse := .error "bad", fileExists := fun _ => false,
      osEnv := [], dotEnvExists := false, dotEnvLines := [] }
    "docker-compose.yml" "/repo").2 rfl "bad" rfl
  exact ⟨h.1, h.2.trans (by decide)⟩

/-! ## Claim C4 — `update_target` on a branch that does not exist -/

/-- **C4** counterexample: on an empty store, `UpdateTarget` for the
not-yet-existing branch `demo/main` is *not* a complete no-op — the
lookup `get_repo_status` lazily creates the (empty) repo entry `demo`,
so the store's state differs afterwards. -/
theorem update_target_missing_branch_not_noop :
    (update_target emptyStore "demo" "main" "web" "success" "Running" 0).status
      ≠ emptyStore.status ∧
    (update_target emptyStore "demo" "main" "web" "success" "Running" 0).status
      = [("demo", { repo_name := "demo", branches := [] })] := by
  constructor
  · decide
  · decide

/-- **C4** (amended): `UpdateTarget` naming a repo/branch whose branch
entry does not exist creates no branch and no target entry, persists no
snapshot and fans nothing out to subscribers; every branch/target
observation is unchanged.  The only deviation from a strict no-op is
that a missing *repo* entry is lazily created empty by the lookup; when
the repo entry already exists, the store is entirely unchanged. -/
theorem update_target_missing_branch_frame (s : StoreState)
    (r b t status msg : String) (now : Nat) (h : getBranch s r b = none) :
    (update_target s r b t status msg now).saved = s.saved ∧
    (update_target s r b t status msg now).notified = s.notified ∧
    (∀ r' b', getBranch (update_target s r b t status msg now) r' b' = getBranch s r' b') ∧
    (∀ r' b' t', getTarget (update_target s r b t status msg now) r' b' t'
      = getTarget s r' b' t') ∧
    (∀ rs, alistGet s.status r = some rs →
      (update_target s r b t status msg now).status = s.status) ∧
    (alistGet s.status r = none →
      (update_target s r b t status msg now).status
        = s.status ++ [(r, { repo_name := r })]) := by
  have heq := update_target_missing_branch s r b t status msg now h
  refine ⟨?_, ?_, ?_, ?_, ?_, ?_⟩
  · rw [heq]
  · rw [heq]
  · intro r' b'
    exact getBranch_update_target_missing s r b t status msg now h r' b'
  · intro r' b' t'
    unfold getTarget
    rw [getBranch_update_target_missing s r b t status msg now h r' b']
  · intro rs hrs
    rw [heq, get_repo_status_of_present s.status r rs hrs]
  · intro hrs
    rw [heq, get_repo_status_of_absent s.status r hrs]

/-- Witness for C4 (amended): with branch `demo/main` existing, an
`UpdateTarget` for the missing branch `demo/dev` leaves the persisted
snapshots, the fan-out log and all branch entries unchanged. -/
theorem update_target_missing_branch_frame_witness :
    getBranch (update_branch emptyStore "demo" "main" {}) "demo" "dev" = none ∧
    (update_target (update_branch emptyStore "demo" "main" {}) "demo" "dev" "web"
        "error" "x" 5).saved = (update_branch emptyStore "demo" "main" {}).saved ∧
    (update_target (update_branch emptyStore "demo" "main" {}) "demo" "dev" "web"
        "error" "x" 5).notified = (update_branch emptyStore "demo" "main" {}).notified ∧
    getBranch (update_target (update_branch emptyStore "demo" "main" {}) "demo" "dev" "web"
        "error" "x" 5) "demo" "dev" = none := by
  have h : getBranch (update_branch emptyStore "demo" "main" {}) "demo" "dev" = none := by
    decide
  have hfr := update_target_missing_branch_frame
    (update_branch emptyStore "demo" "main" {}) "demo" "dev" "web" "error" "x" 5 h
  exact ⟨h, hfr.1, hfr.2.1, by rw [hfr.2.2.1 "demo" "dev"]; exact h⟩

/-! ## Claim C5 — `last_deploy_time` semantics of `update_target` -/

/-- A store in which branch `demo/main` exists and target `web` was
marked `"success"` at time 5. -/
def successStore : StoreState :=
  update_target (update_branch emptyStore "demo" "main" {}) "demo" "main" "web"
    "success" "Running" 5

/-- **C5** counterexample: `update_target` stamps `last_deploy_time` on
*every* call with status `"success"`, not only when the status
transitions into `"success"`: a target already in status `"success"`
(stamped at time 5) gets re-stamped (time 9) by a second `"success"`
update, refuting the only-on-transition claim. -/
theorem update_target_success_restamps :
    (getTarget (update_target successStore "demo" "main" "web" "success" "Running" 9)
        "demo" "main" "web").map (fun x => x.last_deploy_time) = some (some 9) ∧
    (getTarget successStore "demo" "main" "web").map
        (fun x => (x.status, x.last_deploy_time)) = some ("success", some 5) := by
  constructor
  · decide
  · decide

/-- **C5** (amended): on an existing branch, `update_target` with status
`"success"` sets `last_deploy_time` to the current time (on every such
call, including repeated successes — see the counterexample), never for
any other status (those preserve the previous value); afterwards
`last_deploy_time` is non-null, and the next fanned-out snapshot (the
head of the fan-out log, which is pushed by this very call) shows status
`"success"` for that target. -/
theorem update_target_success_time (s : StoreState) (r b t msg : String) (now : Nat)
    (b0 : BranchStatus) (hb : getBranch s r b = some b0) :
    (getTarget (update_target s r b t "success" msg now) r b t).map
        (fun x => x.last_deploy_time) = some (some now) ∧
    (getTarget (update_target s r b t "success" msg now) r b t).map
        (fun x => x.status) = some "success" ∧
    (update_target s r b t "success" msg now).notified.head?
      = some (update_target s r b t "success" msg now).status ∧
    snapTargetStatus (update_target s r b t "success" msg now).status r b t
      = some "success" ∧
    (∀ status, status ≠ "success" →
      (getTarget (update_target s r b t status msg now) r b t).map
          (fun x => x.last_deploy_time)
        = some ((getTarget s r b t).getD { name := t }).last_deploy_time) := by
  have hself := getTarget_update_target s r b t "success" msg now b0 hb
  refine ⟨?_, ?_, ?_, ?_, ?_⟩
  · rw [hself]
    simp
  · rw [hself]
    simp
  · rw [(notified_update_target s r b t "success" msg now b0 hb).1]
    rfl
  · rw [snapTargetStatus_eq, hself]
    simp
  · intro status hst
    rw [getTarget_update_target s r b t status msg now b0 hb]
    simp [hst]

/-- Witness for C5 (amended): after `UpdateTarget(demo, main, web,
"success")` at time 5, `last_deploy_time` is 5 and the next fanned-out
snapshot shows `"success"`, while an `"error"` update preserves the
stamp. -/
theorem update_target_success_time_witness :
    (getTarget successStore "demo" "main" "web").map
        (fun x => x.last_deploy_time) = some (some 5) ∧
    snapTargetStatus successStore.status "demo" "main" "web" = some "success" ∧
    successStore.notified.head? = some successStore.status := by
  have h := update_target_success_time (update_branch emptyStore "demo" "main" {})
    "demo" "main" "web" "Running" 5
    { branch_name := "main" } (by decide)
  exact ⟨h.1, h.2.2.2.1, h.2.2.1⟩

/-! ## Claim C3 — registry logout in `deploy_target` -/

/-- Destructuring an existing branch entry into its repo entry. -/
theorem getBranch_elim (s : StoreState) (r b : String) (b0 : BranchStatus)
    (hb : getBranch s r b = some b0) :
    ∃ rs, alistGet s.status r = some rs ∧ alistGet rs.branches b = some b0 := by
  unfold getBranch at hb
  rcases hr : alistGet s.status r with _ | rs
  · rw [hr] at hb
    simp [Option.bind] at hb
  · rw [hr] at hb
    exact ⟨rs, rfl, by simpa [Option.bind] using hb⟩

/-- An `update_target` on an existing branch keeps the branch entry
present. -/
theorem getBranch_update_target_some (s : StoreState) (r b t status msg : String)
    (now : Nat) (b0 : BranchStatus) (hb : getBranch s r b = some b0) :
    ∃ b1, getBranch (update_target s r b t status msg now) r b = some b1 := by
  obtain ⟨rs, hr, hbr⟩ := getBranch_elim s r b b0 hb
  unfold update_target
  rw [get_repo_status_of_present s.status r rs hr]
  simp only [hbr]
  unfold getBranch
  simp only [alistGet_set_self, Option.some_bind]
  exact ⟨_, rfl⟩

/-- The urls the login loop reports as logged in are registries with a
username from its input list (or were already in the accumulator). -/
theorem loginLoop_mem (env : DeployEnv) (rs : List RegistryConfig) :
    ∀ acc, ∀ url ∈ (loginLoop env acc rs).2,
      url ∈ acc ∨ url ∈ (rs.filter fun r => r.username.isSome).map fun r => r.url := by
  induction rs with
  | nil =>
      intro acc url hu
      unfold loginLoop at hu
      exact Or.inl hu
  | cons r rest ih =>
      intro acc url hu
      unfold loginLoop at hu
      rcases hr : r.username with _ | u
      · rw [hr] at hu
        rcases ih acc url hu with h | h
        · exact Or.inl h
        · right
          simp only [List.filter_cons, hr, Option.isSome_none, Bool.false_eq_true, if_false]
          exact h
      · rw [hr] at hu
        rcases hpw : r.password_env_var.bind env.getenv with _ | pw
        · rw [hpw] at hu
          exact Or.inl hu
        · rw [hpw] at hu
          rcases hlr : env.loginResult r.url with e | _
          · rw [hlr] at hu
            exact Or.inl hu
          · rw [hlr] at hu
            rcases ih (acc ++ [r.url]) url hu with h | h
            · rcases List.mem_append.mp h with h' | h'
              · exact Or.inl h'
              · right
                simp [List.filter_cons, hr]
                left
                simpa using h'
            · right
              simp [List.filter_cons, hr] at h ⊢
              tauto

/-- Every registry reported logged in by `docker_login_registries` is
among the logout attempts of `docker_logout_registries`. -/
theorem docker_login_logged_subset (env : DeployEnv)
    (regs : Option (List RegistryConfig)) (hdk : env.dockerFound = true) :
    ∀ url ∈ (docker_login_registries env regs).2,
      url ∈ docker_logout_registries env regs := by
  intro url hu
  rcases regs with _ | rs
  · simp [docker_login_registries] at hu
  · rcases rs with _ | ⟨r, rest⟩
    · simp [docker_login_registries] at hu
    · unfold docker_login_registries at hu
      rw [hdk] at hu
      simp only [Bool.not_true, Bool.false_eq_true, if_false] at hu
      rcases loginLoop_mem env (r :: rest) [] url hu with h | h
      · simp at h
      · unfold docker_logout_registries
        rw [hdk]
        simpa using h

/-- The recorded status `deploy_target` derives from the compose
subprocess outcome (service.py:665-699). -/
def composeStatus : ComposeOutcome → String
  | .ok => "success"
  | _ => "error"

/-- **C3** (amended): when the *entire* login phase of `deploy_target`
succeeds, a logout is attempted (in the `finally` block) for every
configured registry with a username — in particular for every registry
that logged in — regardless of the deploy outcome (success, non-zero
exit, timeout, or unexpected error), and logout failures never change
the target's recorded status, which is determined by the compose outcome
alone.  When the login phase aborts part-way, however, no logout is
attempted at all, even for registries already logged in — see the
counterexample. -/
theorem deploy_target_logout (denv : DeployEnv) (s : StoreState) (rn bn : String)
    (regs : Option (List RegistryConfig)) (t : ComposeTarget) (now : Nat)
    (b0 : BranchStatus) (hb : getBranch s rn bn = some b0)
    (hd : denv.daemonRunning = true) (hv : (denv.validation t.file).1 = true)
    (hdk : denv.dockerFound = true)
    (hl : (docker_login_registries denv regs).1 = true) :
    (deploy_target denv s rn bn regs t now).2 =
      (docker_logout_registries denv regs).map Action.logoutAttempt ∧
    (∀ url ∈ (docker_login_registries denv regs).2,
      Action.logoutAttempt url ∈ (deploy_target denv s rn bn regs t now).2) ∧
    (getTarget (deploy_target denv s rn bn regs t now).1 rn bn t.name).map
        (fun x => x.status)
      = some (composeStatus (denv.composeResult (deployProjectName rn bn t.name))) := by
  rcases hval : denv.validation t.file with ⟨iv, w⟩
  rw [hval] at hv
  simp only at hv
  subst hv
  rcases hlog : docker_login_registries denv regs with ⟨ok, logged⟩
  rw [hlog] at hl
  simp only at hl
  subst hl
  have hred : deploy_target denv s rn bn regs t now =
      ((match denv.composeResult (deployProjectName rn bn t.name) with
        | .ok =>
            update_target
              (update_target s rn bn t.name "deploying" "Starting deployment..." now)
              rn bn t.name "success" "Running" now
        | .calledProcessError stderr stdout =>
            update_target
              (update_target s rn bn t.name "deploying" "Starting deployment..." now)
              rn bn t.name "error"
              ("Deployment error: " ++
                pyLastN 500 (if stderr ≠ "" then stderr else stdout)) now
        | .timeout =>
            update_target
              (update_target s rn bn t.name "deploying" "Starting deployment..." now)
              rn bn t.name "error"
              ("Timeout after " ++ toString denv.composeTimeoutSeconds ++ "s") now
        | .exc msg =>
            update_target
              (update_target s rn bn t.name "deploying" "Starting deployment..." now)
              rn bn t.name "error" ("Unexpected error: " ++ pyTakeN 100 msg) now),
       (docker_logout_registries denv regs).map Action.logoutAttempt) := by
    unfold deploy_target
    rw [hval, hlog, hd, hdk]
    simp
  obtain ⟨b1, hb1⟩ := getBranch_update_target_some s rn bn t.name "deploying"
    "Starting deployment..." now b0 hb
  refine ⟨?_, ?_, ?_⟩
  · rw [hred]
  · intro url hu
    rw [hred]
    have hmem := docker_login_logged_subset denv regs hdk url (by rw [hlog]; exact hu)
    exact List.mem_map_of_mem Action.logoutAttempt hmem
  · rw [hred]
    rcases hco : denv.composeResult (deployProjectName rn bn t.name)
      with _ | ⟨stderr, stdout⟩ | _ | msg <;>
      simp only [hco] <;>
      rw [getTarget_update_target _ rn bn t.name _ _ now b1 hb1] <;>
      simp [composeStatus]

/-- Docker world for the C3 witness: one private registry whose login
succeeds, a compose run that times out, and a logout that fails. -/
def denvOkLogin : DeployEnv :=
  { daemonRunning := true
    dockerFound := true
    validation := fun _ => (true, [])
    getenv := fun v => if v = "REG_PW" then some "s3cret" else none
    loginResult := fun _ => .ok ()
    composeResult := fun _ => .timeout
    logoutResult := fun _ => .error "logout refused" }

/-- Witness for C3 (amended): the login phase succeeds for the single
private registry; despite the compose timeout and the failing logout
subprocess, the logout is attempted and the recorded status is the
timeout `error`. -/
theorem deploy_target_logout_witness :
    (deploy_target denvOkLogin (update_branch emptyStore "demo" "main" {}) "demo" "main"
        (some [{ url := "reg.example", username := some "alice",
                 password_env_var := some "REG_PW" }])
        { name := "web", file := "docker-compose.yml" } 7).2
      = [Action.logoutAttempt "reg.example"] ∧
    (getTarget (deploy_target denvOkLogin (update_branch emptyStore "demo" "main" {})
        "demo" "main"
        (some [{ url := "reg.example", username := some "alice",
                 password_env_var := some "REG_PW" }])
        { name := "web", file := "docker-compose.yml" } 7).1 "demo" "main" "web").map
        (fun x => x.status) = some "error" := by
  have h := deploy_target_logout denvOkLogin (update_branch emptyStore "demo" "main" {})
    "demo" "main"
    (some [{ url := "reg.example", username := some "alice",
             password_env_var := some "REG_PW" }])
    { name := "web", file := "docker-compose.yml" } 7
    { branch_name := "main" } (by decide) rfl (by decide) rfl (by decide)
  exact ⟨h.1.trans (by decide), h.2.2.trans (by decide)⟩

/-- Docker world for the C3 counterexample: the first private registry
logs in fine, the second one's password variable is unset. -/
def denvPartialLogin : DeployEnv :=
  { daemonRunning := true
    dockerFound := true
    validation := fun _ => (true, [])
    getenv := fun v => if v = "PW1" then some "s3cret" else none
    loginResult := fun _ => .ok ()
    composeResult := fun _ => .ok
    logoutResult := fun _ => .ok 0 }

/-- The registry list of the C3 counterexample. -/
def regsPartial : Option (List RegistryConfig) :=
  some [{ url := "reg1.example", username := some "alice", password_env_var := some "PW1" },
        { url := "reg2.example", username := some "bob", password_env_var := some "PW2" }]

/-- **C3** counterexample: the login phase aborts part-way — `reg1` is
already logged in when `reg2`'s password variable turns out unset — and
`deploy_target` then attempts *no* logout at all (the `finally` block
only fires when `docker_login_registries` returned `True`), refuting the
claim that a logout is attempted for every successfully-logged-in
registry even when the login phase aborts part-way. -/
theorem deploy_target_partial_login_no_logout :
    (docker_login_registries denvPartialLogin regsPartial).2 = ["reg1.example"] ∧
    (docker_login_registries denvPartialLogin regsPartial).1 = false ∧
    (deploy_target denvPartialLogin (update_branch emptyStore "demo" "main" {})
        "demo" "main" regsPartial { name := "web", file := "docker-compose.yml" } 3).2
      = [] ∧
    (getTarget (deploy_target denvPartialLogin (update_branch emptyStore "demo" "main" {})
        "demo" "main" regsPartial { name := "web", file := "docker-compose.yml" } 3).1
        "demo" "main" "web").map (fun x => x.status) = some "error" := by
  refine ⟨by decide, by decide, by decide, by decide⟩

/-! ## Engine lemmas shared by C2, C6 and C7 -/

/-- `deploy_target` never changes any branch's `sync_status`: every path
only issues `update_target` calls. -/
theorem branchSync_deploy_target (denv : DeployEnv) (s : StoreState) (rn bn : String)
    (regs : Option (List RegistryConfig)) (t : ComposeTarget) (now : Nat)
    (r' b' : String) :
    branchSync (deploy_target denv s rn bn regs t now).1 r' b' = branchSync s r' b' := by
  unfold deploy_target
  rcases hd : denv.daemonRunning with _ | _
  · simp [hd, branchSync_update_target]
  · rcases hv : denv.validation t.file with ⟨iv, w⟩
    rcases iv with _ | _
    · simp [hd, hv, branchSync_update_target]
    · rcases hk : denv.dockerFound with _ | _
      · simp [hd, hv, hk, branchSync_update_target]
      · rcases hlog : docker_login_registries denv regs with ⟨ok, logged⟩
        rcases ok with _ | _
        · simp [hd, hv, hk, hlog, branchSync_update_target]
        · rcases hco : denv.composeResult (deployProjectName rn bn t.name) with
            _ | ⟨stderr, stdout⟩ | _ | msg <;>
            simp [hd, hv, hk, hlog, hco, branchSync_update_target]

/-- The deployment loop never changes any branch's `sync_status`. -/
theorem branchSync_deployLoop (denv : DeployEnv) (regs : Option (List RegistryConfig))
    (rn bn : String) (now : Nat) (ts : List ComposeTarget) :
    ∀ s r' b', branchSync (deployLoop denv regs rn bn now ts s).1 r' b'
      = branchSync s r' b' := by
  induction ts with
  | nil => intro s r' b'; rfl
  | cons t ts ih =>
      intro s r' b'
      unfold deployLoop
      rcases htd : t.deploy with _ | _
      · simp only [Bool.false_eq_true, if_false]
        rcases h2 : deployLoop denv regs rn bn now ts
            (update_target s rn bn t.name "skipped" "Deploy disabled" now) with ⟨s2, rest⟩
        have := ih (update_target s rn bn t.name "skipped" "Deploy disabled" now) r' b'
        rw [h2] at this
        simp only [h2]
        rw [this, branchSync_update_target]
      · simp only [if_true]
        rcases h1 : deploy_target denv s rn bn regs t now with ⟨s1, acts⟩
        rcases h2 : deployLoop denv regs rn bn now ts s1 with ⟨s2, rest⟩
        have hih := ih s1 r' b'
        rw [h2] at hih
        have hdt := branchSync_deploy_target denv s rn bn regs t now r' b'
        rw [h1] at hdt
        simp only [h1, h2]
        rw [hih, hdt]

/-- Is an action a health check? -/
def isHealthAction : Action → Bool
  | .health _ => true
  | _ => false

theorem filter_health_map_logout (l : List String) :
    (l.map Action.logoutAttempt).filter isHealthAction = [] := by
  induction l with
  | nil => rfl
  | cons u l ih => simp [isHealthAction, ih]

/-- `deploy_target` emits no health-check actions. -/
theorem deploy_target_no_health (denv : DeployEnv) (s : StoreState) (rn bn : String)
    (regs : Option (List RegistryConfig)) (t : ComposeTarget) (now : Nat) :
    (deploy_target denv s rn bn regs t now).2.filter isHealthAction = [] := by
  unfold deploy_target
  rcases hd : denv.daemonRunning with _ | _
  · simp
  · rcases hv : denv.validation t.file with ⟨iv, w⟩
    rcases iv with _ | _
    · simp
    · rcases hk : denv.dockerFound with _ | _
      · simp
      · rcases hlog : docker_login_registries denv regs with ⟨ok, logged⟩
        rcases ok with _ | _
        · simp
        · rcases hco : denv.composeResult (deployProjectName rn bn t.name) with
            _ | ⟨stderr, stdout⟩ | _ | msg <;>
            simp [hco, filter_health_map_logout]

/-- The deployment loop emits no health-check actions. -/
theorem deployLoop_no_health (denv : DeployEnv) (regs : Option (List RegistryConfig))
    (rn bn : String) (now : Nat) (ts : List ComposeTarget) :
    ∀ s, (deployLoop denv regs rn bn now ts s).2.filter isHealthAction = [] := by
  induction ts with
  | nil => intro s; rfl
  | cons t ts ih =>
      intro s
      unfold deployLoop
      rcases htd : t.deploy with _ | _
      · simp only [Bool.false_eq_true, if_false]
        rcases h2 : deployLoop denv regs rn bn now ts
            (update_target s rn bn t.name "skipped" "Deploy disabled" now) with ⟨s2, rest⟩
        have := ih (update_target s rn bn t.name "skipped" "Deploy disabled" now)
        rw [h2] at this
        simp [isHealthAction, this]
      · simp only [if_true]
        rcases h1 : deploy_target denv s rn bn regs t now with ⟨s1, acts⟩
        rcases h2 : deployLoop denv regs rn bn now ts s1 with ⟨s2, rest⟩
        have hih := ih s1
        rw [h2] at hih
        have hdt := deploy_target_no_health denv s rn bn regs t now
        rw [h1] at hdt
        simp only [h1, h2]
        simp only [List.filter_cons, List.filter_append, isHealthAction]
        simp [hdt, hih]

/-- Every target of the list gets its `deployCall`/`skip` action in the
deployment loop's trace. -/
theorem deployLoop_mem (denv : DeployEnv) (regs : Option (List RegistryConfig))
    (rn bn : String) (now : Nat) (ts : List ComposeTarget) :
    ∀ s, ∀ t ∈ ts,
      (t.deploy = true → Action.deployCall t.name ∈ (deployLoop denv regs rn bn now ts s).2) ∧
      (t.deploy = false → Action.skip t.name ∈ (deployLoop denv regs rn bn now ts s).2) := by
  induction ts with
  | nil => intro s t ht; simp at ht
  | cons u ts ih =>
      intro s t ht
      unfold deployLoop
      rcases htd : u.deploy with _ | _
      · simp only [Bool.false_eq_true, if_false]
        rcases h2 : deployLoop denv regs rn bn now ts
            (update_target s rn bn u.name "skipped" "Deploy disabled" now) with ⟨s2, rest⟩
        rcases List.mem_cons.mp ht with rfl | htl
        · constructor
          · intro hc
            rw [htd] at hc
            simp at hc
          · intro _
            simp
        · have := ih (update_target s rn bn u.name "skipped" "Deploy disabled" now) t htl
          rw [h2] at this
          exact ⟨fun h => by simp [this.1 h], fun h => by simp [this.2 h]⟩
      · simp only [if_true]
        rcases h1 : deploy_target denv s rn bn regs u now with ⟨s1, acts⟩
        rcases h2 : deployLoop denv regs rn bn now ts s1 with ⟨s2, rest⟩
        rcases List.mem_cons.mp ht with rfl | htl
        · constructor
          · intro _
            simp
          · intro hc
            rw [htd] at hc
            simp at hc
        · have := ih s1 t htl
          rw [h2] at this
          exact ⟨fun h => by simp [this.1 h], fun h => by simp [this.2 h]⟩

/-- Drift loop when every target is healthy: no deployment required, and
every target was health-checked. -/
theorem driftLoop_all_running (henv : HealthEnv) (rn bn : String) :
    ∀ ts : List ComposeTarget,
      (∀ t ∈ ts, check_actual_target_state henv rn bn t = "running") →
      driftLoop henv rn bn ts = (false, ts.map fun t => Action.health t.name) := by
  intro ts
  induction ts with
  | nil => intro _; rfl
  | cons t ts ih =>
      intro h
      have hh := fun u hu => h u (List.mem_cons_of_mem t hu)
      unfold driftLoop
      rw [h t (List.mem_cons_self t ts)]
      simp [ih hh]

/-- Drift loop when a first failing target exists: the loop stops there
(`break`), having health-checked exactly the prefix up to and including
that target, and reports drift. -/
theorem driftLoop_first_bad (henv : HealthEnv) (rn bn : String) :
    ∀ pre : List ComposeTarget, ∀ t post,
      (∀ u ∈ pre, check_actual_target_state henv rn bn u = "running") →
      check_actual_target_state henv rn bn t ∈
        (["stopped", "daemon_unavailable", "error_check"] : List String) →
      driftLoop henv rn bn (pre ++ t :: post)
        = (true, (pre ++ [t]).map fun u => Action.health u.name) := by
  intro pre
  induction pre with
  | nil =>
      intro t post _ hbad
      unfold driftLoop
      simp [hbad]
  | cons u pre ih =>
      intro t post hpre hbad
      have hu := hpre u (List.mem_cons_self u pre)
      have hpre' := fun v hv => hpre v (List.mem_cons_of_mem u hv)
      rw [List.cons_append]
      unfold driftLoop
      simp only [hu, ih t post hpre' hbad]
      simp

/-- When the local clone exists, the remote answers with the tip equal to
the local HEAD, and the git environment resolves, a reconciliation pass
reduces to three branch updates (`checking`+time, refreshed commit hash,
`idle`) followed by the drift/deploy tail with `git_updated = false`. -/
theorem check_and_update_nochange (env : SyncEnv) (now : Nat) (rc : RepoConfig)
    (bc : BranchConfig) (s : StoreState) (out : String)
    (h1 : env.repoExistsLocally = true)
    (h2 : ∀ n, env.lsRemote n = .ok out)
    (h3 : firstWord out = some env.localHead)
    (h4 : get_git_env env rc = .ok ())
    (h5 : 0 < env.gitRetryCount) :
    check_and_update env now rc bc s =
      syncTail env now rc bc
        (update_branch (update_branch (update_branch s rc.name bc.name
            { sync_status := some "checking", last_check_time := some now })
          rc.name bc.name { commit_hash := some (pyTake7 env.localHead) })
          rc.name bc.name { sync_status := some "idle" }) false := by
  have hout_ne : ¬(out = "") := by
    intro he
    rw [he] at h3
    simp [firstWord, pySplitWs, pySplitWsAux] at h3
  have hensure : ensure_repo env rc = .ok false := by
    unfold ensure_repo
    rw [h1]
    simp
  have hfetch1 : fetch_remote_info env bc 0 = .ok out := by
    unfold fetch_remote_info
    rw [h2 0]
    simp [hout_ne]
  have hfetch : (retry_with_backoff (fetch_remote_info env bc) env.gitRetryCount).1
      = .ok (some out) := by
    rw [retry_first_ok _ _ out h5 hfetch1]
  unfold check_and_update
  rw [hensure]
  simp only [h4, hfetch, h3]
  rw [if_neg]
  simp

/-! ## Claim C2 — idempotence of reconciliation without upstream change -/

/-- **C2**: when the remote tip equals the local HEAD (same `ls-remote`
answer, no clone) and every target's health check reports `running`,
two consecutive reconciliations yield identical branch state (including
all target states) except for `last_check_time`; the commit hash is
refreshed to the same `ls-remote` answer both times and `sync_status`
ends `idle`. -/
theorem reconcile_idempotent (env : SyncEnv) (t1 t2 : Nat) (rc : RepoConfig)
    (bc : BranchConfig) (s : StoreState) (out : String)
    (h1 : env.repoExistsLocally = true)
    (h2 : ∀ n, env.lsRemote n = .ok out)
    (h3 : firstWord out = some env.localHead)
    (h4 : get_git_env env rc = .ok ())
    (h5 : 0 < env.gitRetryCount)
    (h6 : ∀ t ∈ bc.targets,
      check_actual_target_state env.health rc.name bc.name t = "running") :
    ∃ b1, getBranch (check_and_update env t1 rc bc s).1 rc.name bc.name = some b1 ∧
      b1.sync_status = "idle" ∧
      b1.last_check_time = some t1 ∧
      b1.commit_hash = pyTake7 env.localHead ∧
      b1.targets = ((getBranch s rc.name bc.name).getD { branch_name := bc.name }).targets ∧
      getBranch (check_and_update env t2 rc bc
          (check_and_update env t1 rc bc s).1).1 rc.name bc.name
        = some { b1 with last_check_time := some t2 } := by
  have hrun : ∀ now s0, check_and_update env now rc bc s0 =
      (update_branch (update_branch (update_branch s0 rc.name bc.name
          { sync_status := some "checking", last_check_time := some now })
        rc.name bc.name { commit_hash := some (pyTake7 env.localHead) })
        rc.name bc.name { sync_status := some "idle" },
       bc.targets.map fun t => Action.health t.name) := by
    intro now s0
    rw [check_and_update_nochange env now rc bc s0 out h1 h2 h3 h4 h5]
    unfold syncTail
    rw [driftLoop_all_running env.health rc.name bc.name bc.targets h6]
    simp
  have hB : ∀ s0 now,
      getBranch (update_branch (update_branch (update_branch s0 rc.name bc.name
          { sync_status := some "checking", last_check_time := some now })
        rc.name bc.name { commit_hash := some (pyTake7 env.localHead) })
        rc.name bc.name { sync_status := some "idle" }) rc.name bc.name
      = some (applyBranchPatch (applyBranchPatch (applyBranchPatch
          ((getBranch s0 rc.name bc.name).getD { branch_name := bc.name })
          { sync_status := some "checking", last_check_time := some now })
          { commit_hash := some (pyTake7 env.localHead) })
          { sync_status := some "idle" }) := by
    intro s0 now
    rw [getBranch_update_branch, getBranch_update_branch, getBranch_update_branch]
    simp
  have hg1 : getBranch (check_and_update env t1 rc bc s).1 rc.name bc.name
      = some { branch_name :=
                 ((getBranch s rc.name bc.name).getD { branch_name := bc.name }).branch_name
               last_check_time := some t1
               commit_hash := pyTake7 env.localHead
               sync_status := "idle"
               targets :=
                 ((getBranch s rc.name bc.name).getD { branch_name := bc.name }).targets } := by
    rw [hrun t1 s]
    rw [hB s t1]
    simp [applyBranchPatch]
  refine ⟨_, hg1, rfl, rfl, rfl, rfl, ?_⟩
  rw [hrun t2 (check_and_update env t1 rc bc s).1]
  rw [hB (check_and_update env t1 rc bc s).1 t2]
  rw [hg1]
  simp [applyBranchPatch]

/-- Git/docker world for the C2 witness: clone present, remote tip
`abc123` equal to the local HEAD, one healthy target. -/
def envSteady : SyncEnv :=
  { repoExistsLocally := true
    cloneResults := fun _ => .ok ()
    lsRemote := fun _ => .ok "abc123 refs/heads/main"
    localHead := "abc123"
    pullResults := fun _ => .ok ()
    headAfterPull := "abc123"
    fileExists := fun _ => true
    globalSshKey := none
    gitRetryCount := 3
    health := { daemonRunning := true, dockerFound := true
                psResult := fun _ => .ok (0, "web") }
    deploy := { daemonRunning := true, dockerFound := true
                validation := fun _ => (true, [])
                getenv := fun _ => none
                loginResult := fun _ => .ok ()
                composeResult := fun _ => .ok
                logoutResult := fun _ => .ok 0 } }

/-- The repo/branch configuration used by the engine witnesses. -/
def rcSteady : RepoConfig :=
  { name := "demo", url := "https://example.com/demo.git"
    branches := [{ name := "main"
                   targets := [{ name := "web", file := "docker-compose.yml" }] }] }

/-- The branch configuration used by the engine witnesses. -/
def bcSteady : BranchConfig :=
  { name := "main", targets := [{ name := "web", file := "docker-compose.yml" }] }

/-- Witness for C2: two steady reconciliations of `demo/main` at times 1
and 2 starting from the empty store. -/
theorem reconcile_idempotent_witness :
    ∃ b1, getBranch (check_and_update envSteady 1 rcSteady bcSteady emptyStore).1
        "demo" "main" = some b1 ∧
      b1.sync_status = "idle" ∧
      b1.last_check_time = some 1 ∧
      b1.commit_hash = pyTake7 envSteady.localHead ∧
      b1.targets = ((getBranch emptyStore "demo" "main").getD { branch_name := "main" }).targets ∧
      getBranch (check_and_update envSteady 2 rcSteady bcSteady
          (check_and_update envSteady 1 rcSteady bcSteady emptyStore).1).1 "demo" "main"
        = some { b1 with last_check_time := some 2 } := by
  exact reconcile_idempotent envSteady 1 2 rcSteady bcSteady emptyStore
    "abc123 refs/heads/main" rfl (fun _ => rfl) (by decide) rfl (by decide)
    (fun t ht => by
      rw [show bcSteady.targets = [{ name := "web", file := "docker-compose.yml" }] from rfl,
        List.mem_singleton] at ht
      subst ht
      decide)

/-! ## Claim C6 — drift detection without a git update -/

theorem filter_health_map_health (l : List ComposeTarget) :
    ((l.map fun u => Action.health u.name).filter isHealthAction)
      = l.map fun u => Action.health u.name := by
  induction l with
  | nil => rfl
  | cons u l ih => simp [isHealthAction, ih]

/-- `syncTail` without git update when the drift loop found no drift. -/
theorem syncTail_not_required (env : SyncEnv) (now : Nat) (rc : RepoConfig)
    (bc : BranchConfig) (s : StoreState) (acts : List Action)
    (h : driftLoop env.health rc.name bc.name bc.targets = (false, acts)) :
    syncTail env now rc bc s false = (s, acts) := by
  unfold syncTail
  rw [h]
  simp

/-- `syncTail` without git update when the drift loop found drift: the
deployment loop runs after the health actions. -/
theorem syncTail_required (env : SyncEnv) (now : Nat) (rc : RepoConfig)
    (bc : BranchConfig) (s : StoreState) (acts : List Action)
    (h : driftLoop env.health rc.name bc.name bc.targets = (true, acts)) :
    syncTail env now rc bc s false =
      ((deployLoop env.deploy rc.registries rc.name bc.name now bc.targets s).1,
       acts ++ (deployLoop env.deploy rc.registries rc.name bc.name now bc.targets s).2) := by
  unfold syncTail
  rw [h]
  simp

/-- **C6** (amended): in a reconciliation pass with no git update, the
health checker is called for the targets in configuration order *up to
and including the first target* whose actual state is `stopped`,
`daemon_unavailable` or `error_check` (the loop `break`s there, so later
targets are not health-checked; only when every target reports `running`
is the health checker called for every target); if such a failing target
exists, `deployment_required` is set and the deployment phase runs for
every target of the branch (deploy or skip) even without a commit
change. -/
theorem drift_detection (env : SyncEnv) (now : Nat) (rc : RepoConfig)
    (bc : BranchConfig) (s : StoreState) (out : String)
    (h1 : env.repoExistsLocally = true)
    (h2 : ∀ n, env.lsRemote n = .ok out)
    (h3 : firstWord out = some env.localHead)
    (h4 : get_git_env env rc = .ok ())
    (h5 : 0 < env.gitRetryCount) :
    ((∀ t ∈ bc.targets,
        check_actual_target_state env.health rc.name bc.name t = "running") →
      (check_and_update env now rc bc s).2 = bc.targets.map fun t => Action.health t.name) ∧
    (∀ pre t post, bc.targets = pre ++ t :: post →
      (∀ u ∈ pre, check_actual_target_state env.health rc.name bc.name u = "running") →
      check_actual_target_state env.health rc.name bc.name t ∈
        (["stopped", "daemon_unavailable", "error_check"] : List String) →
      ((check_and_update env now rc bc s).2.filter isHealthAction
        = (pre ++ [t]).map fun u => Action.health u.name) ∧
      (∀ u ∈ bc.targets,
        (u.deploy = true →
          Action.deployCall u.name ∈ (check_and_update env now rc bc s).2) ∧
        (u.deploy = false →
          Action.skip u.name ∈ (check_and_update env now rc bc s).2))) := by
  constructor
  · intro h6
    rw [check_and_update_nochange env now rc bc s out h1 h2 h3 h4 h5]
    unfold syncTail
    rw [driftLoop_all_running env.health rc.name bc.name bc.targets h6]
    simp
  · intro pre t post hsplit hpre hbad
    rw [check_and_update_nochange env now rc bc s out h1 h2 h3 h4 h5]
    rw [syncTail_required env now rc bc _ ((pre ++ [t]).map fun u => Action.health u.name)
      (by rw [hsplit]
          exact driftLoop_first_bad env.health rc.name bc.name pre t post hpre hbad)]
    constructor
    · rw [List.filter_append, deployLoop_no_health, filter_health_map_health,
        List.append_nil]
    · intro u hu
      have hm := deployLoop_mem env.deploy rc.registries rc.name bc.name now
        bc.targets
        (update_branch (update_branch (update_branch s rc.name bc.name
            { sync_status := some "checking", last_check_time := some now })
          rc.name bc.name { commit_hash := some (pyTake7 env.localHead) })
          rc.name bc.name { sync_status := some "idle" }) u hu
      constructor
      · intro hd
        exact List.mem_append_right _ (hm.1 hd)
      · intro hd
        exact List.mem_append_right _ (hm.2 hd)

/-- Git/docker world for the C6 witness and counterexample: clone
present, remote tip equal to local HEAD, target `t1` stopped, target
`t2` running, docker daemon unavailable for deployments. -/
def envDrift : SyncEnv :=
  { repoExistsLocally := true
    cloneResults := fun _ => .ok ()
    lsRemote := fun _ => .ok "abc123 refs/heads/main"
    localHead := "abc123"
    pullResults := fun _ => .ok ()
    headAfterPull := "abc123"
    fileExists := fun _ => true
    globalSshKey := none
    gitRetryCount := 3
    health := { daemonRunning := true, dockerFound := true
                psResult := fun p => if p = "demo_main_t1" then .ok (0, "")
                  else .ok (0, "svc") }
    deploy := { daemonRunning := false, dockerFound := true
                validation := fun _ => (true, [])
                getenv := fun _ => none
                loginResult := fun _ => .ok ()
                composeResult := fun _ => .ok
                logoutResult := fun _ => .ok 0 } }

/-- Branch with two targets, the first of which has stopped. -/
def bcDrift : BranchConfig :=
  { name := "main"
    targets := [{ name := "t1", file := "c1.yml" }, { name := "t2", file := "c2.yml" }] }

/-- Repo configuration for the C6 witness/counterexample. -/
def rcDrift : RepoConfig :=
  { name := "demo", url := "https://example.com/demo.git", branches := [bcDrift] }

/-- **C6** counterexample: with targets `[t1, t2]` and `t1` reporting
`stopped`, the pass health-checks only `t1` (the loop breaks before
`t2`), refuting the claim that the health checker is called for every
target of the branch. -/
theorem drift_break_counterexample :
    (check_and_update envDrift 0 rcDrift bcDrift emptyStore).2.filter isHealthAction
      = [Action.health "t1"] ∧
    bcDrift.targets.map (fun t => t.name) = ["t1", "t2"] ∧
    check_actual_target_state envDrift.health "demo" "main"
      { name := "t1", file := "c1.yml" } = "stopped" ∧
    check_actual_target_state envDrift.health "demo" "main"
      { name := "t2", file := "c2.yml" } = "running" := by
  refine ⟨by decide, by decide, by decide, by decide⟩

/-- Witness for C6 (amended): in the same world, the prefix
characterization and the triggered deployment, via the theorem applied
at `pre = []`, `t = t1`, `post = [t2]`. -/
theorem drift_detection_witness :
    ((check_and_update envDrift 0 rcDrift bcDrift emptyStore).2.filter isHealthAction
      = [Action.health "t1"]) ∧
    Action.deployCall "t1" ∈ (check_and_update envDrift 0 rcDrift bcDrift emptyStore).2 ∧
    Action.deployCall "t2" ∈ (check_and_update envDrift 0 rcDrift bcDrift emptyStore).2 := by
  have h := (drift_detection envDrift 0 rcDrift bcDrift emptyStore
    "abc123 refs/heads/main" rfl (fun _ => rfl) (by decide) rfl (by decide)).2
    [] { name := "t1", file := "c1.yml" } [{ name := "t2", file := "c2.yml" }]
    rfl (fun u hu => by simp at hu) (by decide)
  refine ⟨h.1.trans (by decide), ?_, ?_⟩
  · exact (h.2 { name := "t1", file := "c1.yml" } (by decide)).1 rfl
  · exact (h.2 { name := "t2", file := "c2.yml" } (by decide)).1 rfl

/-! ## Claim C7 — the reconciliation pass never propagates an exception -/

/-- The drift/deploy tail never changes any branch's `sync_status`. -/
theorem branchSync_syncTail (env : SyncEnv) (now : Nat) (rc : RepoConfig)
    (bc : BranchConfig) (s1 : StoreState) (gup : Bool) (r' b' : String) :
    branchSync (syncTail env now rc bc s1 gup).1 r' b' = branchSync s1 r' b' := by
  unfold syncTail
  rcases gup with _ | _
  · rcases hdl : driftLoop env.health rc.name bc.name bc.targets with ⟨req, acts⟩
    rcases req with _ | _
    · simp [hdl]
    · simp [hdl, branchSync_deployLoop]
  · simp [branchSync_deployLoop]

theorem of_branchSync_idle (sX : StoreState) (r b : String)
    (h : branchSync sX r b = some "idle") :
    ∃ bb, getBranch sX r b = some bb ∧ bb.sync_status = "idle" := by
  unfold branchSync at h
  rcases hg : getBranch sX r b with _ | bb
  · rw [hg] at h
    simp at h
  · rw [hg] at h
    exact ⟨bb, rfl, by simpa using h⟩

/-- **C7**: `check_and_update` is total — on every input it returns
normally with a state and a trace (there is no error output at all in
its type).  Moreover the branch always ends with `sync_status` `idle` or
`error`: git errors surviving the retry loops and the failure modes
reaching the top-level handler (clone failure, `None`/empty `ls-remote`
answers) all set `sync_status = "error"` and return; and in every such
error outcome the trace is empty — in particular no deploy was
attempted. -/
theorem reconcile_never_raises (env : SyncEnv) (now : Nat) (rc : RepoConfig)
    (bc : BranchConfig) (s : StoreState) :
    ∃ b, getBranch (check_and_update env now rc bc s).1 rc.name bc.name = some b ∧
      (b.sync_status = "idle" ∨ b.sync_status = "error") ∧
      (b.sync_status = "error" → (check_and_update env now rc bc s).2 = []) := by
  unfold check_and_update
  rcases he : ensure_repo env rc with e | is_new
  · exact ⟨_, getBranch_update_branch _ _ _ _, Or.inr rfl, fun _ => rfl⟩
  · dsimp only
    rcases hg : get_git_env env rc with e | u
    · exact ⟨_, getBranch_update_branch _ _ _ _, Or.inr rfl, fun _ => rfl⟩
    · dsimp only
      rcases hf : (retry_with_backoff (fetch_remote_info env bc) env.gitRetryCount).1
        with e | o
      · exact ⟨_, getBranch_update_branch _ _ _ _, Or.inr rfl, fun _ => rfl⟩
      · rcases o with _ | outv
        · exact ⟨_, getBranch_update_branch _ _ _ _, Or.inr rfl, fun _ => rfl⟩
        · dsimp only
          rcases hw : firstWord outv with _ | rh
          · exact ⟨_, getBranch_update_branch _ _ _ _, Or.inr rfl, fun _ => rfl⟩
          · dsimp only
            by_cases hcond : env.localHead ≠ rh ∨ is_new = true
            · rw [if_pos hcond]
              rcases hp : (retry_with_backoff (pullOnce env) env.gitRetryCount).1
                with e | o2
              · exact ⟨_, getBranch_update_branch _ _ _ _, Or.inr rfl, fun _ => rfl⟩
              · have hsync : branchSync
                    (syncTail env now rc bc
                      (update_branch (update_branch (update_branch (update_branch s
                          rc.name bc.name { sync_status := some "checking",
                                            last_check_time := some now })
                        rc.name bc.name { commit_hash := some (pyTake7 rh) })
                        rc.name bc.name { sync_status := some "pulling" })
                        rc.name bc.name
                        { sync_status := some "idle"
                          commit_hash := some (pyTake7 env.headAfterPull) }) true).1
                    rc.name bc.name = some "idle" := by
                  rw [branchSync_syncTail]
                  unfold branchSync
                  rw [getBranch_update_branch]
                  rfl
                obtain ⟨bb, hbb, hbbs⟩ := of_branchSync_idle _ _ _ hsync
                refine ⟨bb, hbb, Or.inl hbbs, fun hc => ?_⟩
                rw [hbbs] at hc
                exact absurd hc (by decide)
            · rw [if_neg hcond]
              have hsync : branchSync
                  (syncTail env now rc bc
                    (update_branch (update_branch (update_branch s
                        rc.name bc.name { sync_status := some "checking",
                                          last_check_time := some now })
                      rc.name bc.name { commit_hash := some (pyTake7 rh) })
                      rc.name bc.name { sync_status := some "idle" }) false).1
                  rc.name bc.name = some "idle" := by
                rw [branchSync_syncTail]
                unfold branchSync
                rw [getBranch_update_branch]
                rfl
              obtain ⟨bb, hbb, hbbs⟩ := of_branchSync_idle _ _ _ hsync
              refine ⟨bb, hbb, Or.inl hbbs, fun hc => ?_⟩
              rw [hbbs] at hc
              exact absurd hc (by decide)

/-- Witness for C7: the pass over a world whose `ls-remote` always fails
ends with the branch marked `error`, an empty trace, and no exception —
obtained by applying the theorem at this concrete input. -/
theorem reconcile_never_raises_witness :
    ∃ b, getBranch (check_and_update
        { repoExistsLocally := true
          cloneResults := fun _ => .ok ()
          lsRemote := fun _ => .error "connection reset"
          localHead := "abc123"
          pullResults := fun _ => .ok ()
          headAfterPull := "abc123"
          fileExists := fun _ => true
          globalSshKey := none
          gitRetryCount := 3
          health := { daemonRunning := true, dockerFound := true
                      psResult := fun _ => .ok (0, "web") }
          deploy := { daemonRunning := true, dockerFound := true
                      validation := fun _ => (true, [])
                      getenv := fun _ => none
                      loginResult := fun _ => .ok ()
                      composeResult := fun _ => .ok
                      logoutResult := fun _ => .ok 0 } }
        0 { name := "demo", url := "https://example.com/demo.git", branches := [] }
        { name := "main", targets := [] } emptyStore).1 "demo" "main" = some b ∧
      (b.sync_status = "idle" ∨ b.sync_status = "error") ∧
      (b.sync_status = "error" → (check_and_update
        { repoExistsLocally := true
          cloneResults := fun _ => .ok ()
          lsRemote := fun _ => .error "connection reset"
          localHead := "abc123"
          pullResults := fun _ => .ok ()
          headAfterPull := "abc123"
          fileExists := fun _ => true
          globalSshKey := none
          gitRetryCount := 3
          health := { daemonRunning := true, dockerFound := true
                      psResult := fun _ => .ok (0, "web") }
          deploy := { daemonRunning := true, dockerFound := true
                      validation := fun _ => (true, [])
                      getenv := fun _ => none
                      loginResult := fun _ => .ok ()
                      composeResult := fun _ => .ok
                      logoutResult := fun _ => .ok 0 } }
        0 { name := "demo", url := "https://example.com/demo.git", branches := [] }
        { name := "main", targets := [] } emptyStore).2 = []) :=
  reconcile_never_raises _ 0 _ _ emptyStore

end VigilCD
